import Mathlib

/-!
# Named logging registry (`internal/logger.go`)

A shallow embedding of the package `internal`: the handle type `LogHandle`,
its formatter `Format`, the registry operations `NewLogger`, `GetLogger`,
`InitLoggers`, `GetStdLogger`, and the parts of the logging library, of the
time formatter and of the value printer that these functions call.

Go strings and byte slices are `String`; every operation on them goes through
the character list (`String.data`), which is the list of code points.
Pointers to handles are indices into `State.heap`; the nil pointer and any
dangling pointer are indices outside the heap, and dereferencing one is a
panic (`none`).
-/

namespace Logger

/-! ## Severities of the logging library -/

/-- The severities, in the library's numeric order (`PanicLevel` is 0). -/
inductive Level where
  | PanicLevel
  | FatalLevel
  | ErrorLevel
  | WarnLevel
  | InfoLevel
  | DebugLevel
  | TraceLevel
  deriving DecidableEq, Repr

/-- The numeric value of a severity. -/
def Level.toNat : Level → Nat
  | .PanicLevel => 0
  | .FatalLevel => 1
  | .ErrorLevel => 2
  | .WarnLevel => 3
  | .InfoLevel => 4
  | .DebugLevel => 5
  | .TraceLevel => 6

/-- The library's `Level.String()`: the lower-case spelling of a severity. -/
def levelString : Level → String
  | .PanicLevel => "panic"
  | .FatalLevel => "fatal"
  | .ErrorLevel => "error"
  | .WarnLevel => "warning"
  | .InfoLevel => "info"
  | .DebugLevel => "debug"
  | .TraceLevel => "trace"

/-- The function `strings.ToUpper`, on the ASCII letters (the level names have no others). -/
def ToUpper (s : String) : String := String.mk (s.data.map Char.toUpper)

/-! ## Wall-clock time and its rendering -/

/-- A `time.Time`, as the civil fields of the instant in its own location. -/
structure Time where
  year : Int
  month : Nat
  day : Nat
  hour : Nat
  minute : Nat
  second : Nat
  nanosecond : Nat
  inRange : 1 ≤ month ∧ month ≤ 12 ∧ 1 ≤ day ∧ day ≤ 31 ∧ hour < 24 ∧ minute < 60 ∧
    second < 60 ∧ nanosecond < 1000000000

/-- The decimal digits of `u`, padded with zeros on the left to at least `width` characters. -/
def padDigits (u : Nat) (width : Nat) : List Char :=
  let ds := Nat.toDigits 10 u
  List.replicate (width - ds.length) '0' ++ ds

/-- The time package's `appendInt`: a minus sign for a negative number, then the
decimal digits zero-padded to at least `width`. -/
def appendInt (x : Int) (width : Nat) : String :=
  (if x < 0 then "-" else "") ++ String.mk (padDigits x.natAbs width)

/-- The time package's `formatNano` for a fixed-width fraction of `n` digits: the
separator and the first `n` of the nine zero-padded digits of the nanoseconds. -/
def formatNano (nanosec : Nat) (n : Nat) : String :=
  "." ++ String.mk ((padDigits nanosec 9).take n)

/-- The layout constant of `Format`. -/
def timeFormat : String := "2006/01/02 15:04:05.000000"

/-- The rendering `t.Format(timeFormat)`: four-digit year, two-digit month, day, hour,
minute and second, and six digits of fractional second. -/
def Time.Format (t : Time) : String :=
  appendInt t.year 4 ++ "/" ++ appendInt t.month 2 ++ "/" ++ appendInt t.day 2 ++ " " ++
    appendInt t.hour 2 ++ ":" ++ appendInt t.minute 2 ++ ":" ++ appendInt t.second 2 ++
    formatNano t.nanosecond 6

/-! ## Records -/

/-- The values a context carries (`interface{}`), for the kinds the printer is used on here. -/
inductive Value where
  | int (i : Int)
  | str (s : String)
  | bool (b : Bool)
  | nil
  deriving DecidableEq, Repr

/-- The printer's `%v` rendering of a value. -/
def Value.render : Value → String
  | .int i => toString i
  | .str s => s
  | .bool b => if b then "true" else "false"
  | .nil => "<nil>"

/-- The context `logrus.Fields` of a record: a map from string keys to values, given as
its key/value pairs in the order the keys were inserted (the keys are pairwise distinct). -/
abbrev Fields := List (String × Value)

/-- One `key:value` item of a printed map. -/
def renderPair (kv : String × Value) : String := kv.1 ++ ":" ++ kv.2.render

/-- The items joined by single spaces. -/
def joinSpace : List String → String
  | [] => ""
  | [x] => x
  | x :: y :: rest => x ++ " " ++ joinSpace (y :: rest)

/-- The key order of the printer: byte-wise comparison of the keys. -/
def keyLe (a b : String × Value) : Prop := a.1.data ≤ b.1.data

instance : DecidableRel keyLe := fun a b => inferInstanceAs (Decidable (a.1.data ≤ b.1.data))

/-- The printer applied to a map, `fmt.Sprint(e.Data)`: the items in sorted key order
between `map[` and `]`. -/
def Sprint (data : Fields) : String :=
  "map[" ++ joinSpace ((data.insertionSort keyLe).map renderPair) ++ "]"

/-- A log record, `logrus.Entry`. -/
structure Entry where
  Data : Fields
  Time : Time
  Level : Level
  Message : String

/-! ## Sinks -/

/-- A system-log sink, `*logrus_syslog.SyslogHook`; `id` is the identity of the object. -/
structure SyslogHook where
  id : Nat
  deriving DecidableEq, Repr

/-- A remote-log sink, the hook of `logrus_cloudwatchlogs`; `id` is the identity of the object. -/
structure CloudwatchHook where
  id : Nat
  deriving DecidableEq, Repr

/-- A sink attached to a handle, `logrus.Hook`. -/
inductive Hook where
  | syslog (h : SyslogHook)
  | cloudwatch (h : CloudwatchHook)
  deriving DecidableEq, Repr

/-! ## Handles and the registry -/

/-- An output destination, `io.Writer`. -/
inductive Writer where
  | Stderr
  | other (id : Nat)
  deriving DecidableEq, Repr

/-- The formatter a handle carries, `logrus.Formatter`: nil, a pointer to a handle, or a
formatter of another type. -/
inductive Formatter where
  | nil
  | logHandle (p : Nat)
  | other
  deriving DecidableEq, Repr

/-- The struct `LogHandle`: the embedded `logrus.Logger` fields `Out`, `Hooks`, `Formatter`,
`Level`, then `name` and `Lvl`. `Hooks` lists the sinks in the order of `Hooks.Add` (the
library files a sink under each severity the sink reports; the order of attachment is the
order within every severity). -/
structure LogHandle where
  Out : Option Writer
  Hooks : List Hook
  Formatter : Formatter
  Level : Level
  name : String
  Lvl : Option Logger.Level
  deriving DecidableEq, Repr

/-- The package state: the heap of handles, the map `loggers` (a name is looked up from the
front; a new name is added at the back), the variables `log`, `fuseLog` and `syslogHook`,
and the writes made to outputs so far. -/
structure State where
  heap : List LogHandle
  loggers : List (String × Nat)
  log : Option Nat
  fuseLog : Option Nat
  syslogHook : Option SyslogHook
  written : List (Writer × String)
  deriving DecidableEq, Repr

/-- The method `(*LogHandle).Format`: the rendered line and the error (always nil). -/
def Format (syslogHook : Option SyslogHook) (l : LogHandle) (e : Entry) :
    String × Option String :=
  let timestamp := ""
  let lvl := e.Level
  let lvl := match l.Lvl with
    | some v => v
    | none => lvl
  let timestamp := if syslogHook = none then e.Time.Format ++ " " else timestamp
  let str := timestamp ++ l.name ++ "." ++ ToUpper (levelString lvl) ++ " " ++ e.Message
  let str := if e.Data.length ≠ 0 then str ++ (" " ++ Sprint e.Data) else str
  let str := str ++ "\n"
  (str, none)

/-- The function `NewLogger`: allocates a handle and returns its address. -/
def NewLogger (s : State) (name : String) : State × Nat :=
  let p := s.heap.length
  let l : LogHandle :=
    { Out := none, Hooks := [], Formatter := .nil, Level := .PanicLevel, name := name,
      Lvl := none }
  let l := { l with Out := some Writer.Stderr }
  let l := { l with Formatter := .logHandle p }
  let l := { l with Level := .InfoLevel }
  let l := { l with Hooks := [] }
  let l := match s.syslogHook with
    | some k => { l with Hooks := l.Hooks ++ [Hook.syslog k] }
    | none => l
  ({ s with heap := s.heap ++ [l] }, p)

/-- The function `GetLogger`: the handle registered under `name`, created on a miss. -/
def GetLogger (s : State) (name : String) : State × Nat :=
  match s.loggers.lookup name with
  | some logger => (s, logger)
  | none =>
    let r := NewLogger s name
    ({ r.1 with loggers := r.1.loggers ++ [(name, r.2)] }, r.2)

/-- The library's threshold test `IsLevelEnabled`. -/
def IsLevelEnabled (h : LogHandle) (level : Level) : Bool :=
  decide (level.toNat ≤ h.Level.toNat)

/-- Emission of one record with no context on the handle at `l`: dropped below the
threshold, otherwise rendered by the handle's formatter and written to its output. The
delivery of the record to the attached sinks is the library's and is not recorded in the
state. -/
def emit (s : State) (l : Nat) (level : Level) (msg : String) (t : Time) : Option State :=
  match s.heap[l]? with
  | none => none
  | some h =>
    if IsLevelEnabled h level then
      let e : Entry := { Data := [], Time := t, Level := level, Message := msg }
      match h.Formatter, h.Out with
      | .logHandle f, some out =>
        match s.heap[f]? with
        | none => none
        | some fh => some { s with written := s.written ++ [(out, (Format s.syslogHook fh e).1)] }
      | _, _ => none
    else some s

/-- The library's `Println` on a handle variable: one record at `InfoLevel`. -/
def Println (s : State) (l : Option Nat) (msg : String) (t : Time) : Option State :=
  match l with
  | none => none
  | some p => emit s p .InfoLevel msg t

/-- The loop `for _, l := range loggers { l.Hooks.Add(hook) }`. -/
def addHooks (hook : Hook) : List (String × Nat) → List LogHandle → Option (List LogHandle)
  | [], heap => some heap
  | (_, p) :: rest, heap =>
    match heap[p]? with
    | none => none
    | some l => addHooks hook rest (heap.set p { l with Hooks := l.Hooks ++ [hook] })

/-- What the environment answers during one call of `InitLoggers`: the outcome of
constructing the remote sink for a group, stream and region, the outcome of constructing
the system sink, and the clock readings for the two possible warnings. -/
structure Env where
  NewHook : String → String → String → Except String CloudwatchHook
  NewSyslogHook : Except String SyslogHook
  cwTime : Time
  sysTime : Time

/-- The first statement of `InitLoggers`: the remote sink, constructed when the region,
the group and the stream name are all non-empty. -/
def initCloudwatch (s : State) (env : Env) (cwRegion cwGroup cwName : String) : Option State :=
  if cwRegion ≠ "" ∧ cwGroup ≠ "" ∧ cwName ≠ "" then
    match env.NewHook cwGroup cwName cwRegion with
    | .error err => Println s s.log ("Could not create cloudwatch log: " ++ err) env.cwTime
    | .ok hook =>
      match addHooks (Hook.cloudwatch hook) s.loggers s.heap with
      | none => none
      | some heap => some { s with heap := heap }
  else some s

/-- The second statement of `InitLoggers`: the system sink, constructed when `logToSyslog`
is set. The sink is held in a variable local to the statement. -/
def initSyslog (s : State) (env : Env) (logToSyslog : Bool) : Option State :=
  if logToSyslog then
    match env.NewSyslogHook with
    | .error err =>
      Println s s.log ("Unable to connect to local syslog daemon: " ++ err) env.sysTime
    | .ok hook =>
      match addHooks (Hook.syslog hook) s.loggers s.heap with
      | none => none
      | some heap => some { s with heap := heap }
  else some s

/-- The function `InitLoggers`: its two statements in sequence. -/
def InitLoggers (s : State) (env : Env) (logToSyslog : Bool)
    (cwRegion cwGroup cwName : String) : Option State :=
  match initCloudwatch s env cwRegion cwGroup cwName with
  | none => none
  | some s1 => initSyslog s1 env logToSyslog

/-- The pipe writer the library's `Writer()` returns: each line written to it becomes one
record on the handle `logger` at severity `level`. -/
structure PipeWriter where
  logger : Nat
  level : Level
  deriving DecidableEq, Repr

/-- The library's `(*Logger).Writer()`, which is `WriterLevel(InfoLevel)`. -/
def LoggerWriter (l : Nat) : PipeWriter := { logger := l, level := .InfoLevel }

/-- The standard-library logger `*glog.Logger` built by `glog.New(w, "", 0)`. -/
structure StdLogger where
  out : PipeWriter
  linePrefix : String
  flag : Nat
  deriving DecidableEq, Repr

/-- The function `GetStdLogger`. -/
def GetStdLogger (s : State) (l : Nat) (lvl : Level) : Option (State × StdLogger) :=
  match s.heap[l]? with
  | none => none
  | some h =>
    let w := LoggerWriter l
    match h.Formatter with
    | .logHandle f =>
      match s.heap[f]? with
      | none => none
      | some fh =>
        let heap1 := s.heap.set f { fh with Lvl := some lvl }
        match heap1[l]? with
        | none => none
        | some h1 =>
          some ({ s with heap := heap1.set l { h1 with Level := lvl } },
            { out := w, linePrefix := "", flag := 0 })
    | _ => none

/-- One line written through a pipe writer: one record on its handle at its severity. -/
def PipeWriter.WriteLine (s : State) (w : PipeWriter) (line : String) (t : Time) :
    Option State :=
  emit s w.logger w.level line t

/-! ## Initialisation and reachable states -/

/-- The state before the package variables are initialised. -/
def emptyState : State :=
  { heap := [], loggers := [], log := none, fuseLog := none, syslogHook := none, written := [] }

/-- The state after package initialisation: `log = GetLogger("main")`, then
`fuseLog = GetLogger("fuse")`. -/
def init : State :=
  let r1 := GetLogger emptyState "main"
  let s1 := { r1.1 with log := some r1.2 }
  let r2 := GetLogger s1 "fuse"
  { r2.1 with fuseLog := some r2.2 }

/-- A call of one of the three exported registry operations. -/
inductive Op where
  | getLogger (name : String)
  | initLoggers (env : Env) (logToSyslog : Bool) (cwRegion cwGroup cwName : String)
  | getStdLogger (l : Nat) (lvl : Level)

/-- The state after one call (`none` when the call panics). -/
def step (s : State) : Op → Option State
  | .getLogger name => some (GetLogger s name).1
  | .initLoggers env logToSyslog cwRegion cwGroup cwName =>
    InitLoggers s env logToSyslog cwRegion cwGroup cwName
  | .getStdLogger l lvl => (GetStdLogger s l lvl).map Prod.fst

/-- The state after a sequence of calls. -/
def run (s : State) : List Op → Option State
  | [] => some s
  | op :: ops =>
    match step s op with
    | none => none
    | some s1 => run s1 ops

/-- The states the package can be in: those a sequence of calls reaches from `init`. -/
def Reachable (s : State) : Prop := ∃ ops, run init ops = some s

/-! ## Invariant of the reachable states -/

/-- What every reachable state satisfies: each handle is its own formatter and writes to
standard error; the registry holds exactly the handles of the heap, in order of creation,
each under its own name and no name twice; `log` and `fuseLog` are the handles registered
as `main` and `fuse`; and `syslogHook` is nil. -/
def Inv (s : State) : Prop :=
  (∀ (p : Nat) (h : LogHandle), s.heap[p]? = some h →
      h.Formatter = Formatter.logHandle p ∧ h.Out = some Writer.Stderr) ∧
  s.loggers.map Prod.snd = List.range s.heap.length ∧
  (s.loggers.map Prod.fst).Nodup ∧
  (∀ np ∈ s.loggers, ∃ h, s.heap[np.2]? = some h ∧ h.name = np.1) ∧
  (∃ p, s.log = some p ∧ s.loggers.lookup "main" = some p) ∧
  (∃ p, s.fuseLog = some p ∧ s.loggers.lookup "fuse" = some p) ∧
  s.syslogHook = none

/-- The sinks the first statement of `InitLoggers` appends to a handle that occurs `k`
times in the registry. -/
def cwAdded (env : Env) (cwRegion cwGroup cwName : String) (k : Nat) : List Hook :=
  if cwRegion ≠ "" ∧ cwGroup ≠ "" ∧ cwName ≠ "" then
    match env.NewHook cwGroup cwName cwRegion with
    | .error _ => []
    | .ok hook => List.replicate k (Hook.cloudwatch hook)
  else []

/-- The sinks the second statement of `InitLoggers` appends to a handle that occurs `k`
times in the registry. -/
def sysAdded (env : Env) (logToSyslog : Bool) (k : Nat) : List Hook :=
  if logToSyslog then
    match env.NewSyslogHook with
    | .error _ => []
    | .ok hook => List.replicate k (Hook.syslog hook)
  else []

/-- The sinks `InitLoggers` appends to a handle that occurs `k` times in the registry: the
remote sink when it is requested and constructed, then the system sink likewise. -/
def addedHooks (env : Env) (logToSyslog : Bool) (cwRegion cwGroup cwName : String)
    (k : Nat) : List Hook :=
  cwAdded env cwRegion cwGroup cwName k ++ sysAdded env logToSyslog k

/-- The handle `NewLogger` has built when it returns, for the address `p` it allocated. -/
def newHandle (syslogHook : Option SyslogHook) (p : Nat) (name : String) : LogHandle :=
  { Out := some Writer.Stderr
    Hooks := match syslogHook with
      | some k => [Hook.syslog k]
      | none => []
    Formatter := Formatter.logHandle p
    Level := Level.InfoLevel
    name := name
    Lvl := none }

/-- A handle with more sinks appended. -/
def withHooks (extra : List Hook) (h : LogHandle) : LogHandle :=
  { h with Hooks := h.Hooks ++ extra }

/-- The state `s1` is `s` with sinks appended to its handles, `extra p` to the handle at `p`,
and possibly with more writes made. -/
def Attached (extra : Nat → List Hook) (s s1 : State) : Prop :=
  s1.loggers = s.loggers ∧ s1.log = s.log ∧ s1.fuseLog = s.fuseLog ∧
    s1.syslogHook = s.syslogHook ∧ s1.heap.length = s.heap.length ∧
    ∀ p : Nat, s1.heap[p]? = (s.heap[p]?).map (withHooks (extra p))

/-- Two states that differ at most in the writes made so far. -/
def SameButWritten (s s1 : State) : Prop :=
  s1.heap = s.heap ∧ s1.loggers = s.loggers ∧ s1.log = s.log ∧ s1.fuseLog = s.fuseLog ∧
    s1.syslogHook = s.syslogHook

/-- A clock reading used in the examples. -/
def exampleTime : Time :=
  { year := 2025, month := 1, day := 2, hour := 15, minute := 4, second := 5,
    nanosecond := 123456789, inRange := by decide }

/-- An environment in which both sinks can be constructed. -/
def exampleEnv : Env :=
  { NewHook := fun _ _ _ => .ok { id := 1 }
    NewSyslogHook := .ok { id := 0 }
    cwTime := exampleTime
    sysTime := exampleTime }

/-- A sequence of calls of all three operations. -/
def exampleOps : List Op :=
  [Op.getLogger "y", Op.initLoggers exampleEnv true "r" "g" "s", Op.getStdLogger 2 Level.DebugLevel,
    Op.getLogger "main"]

/-- A field of a timestamp: exactly `w` characters, all of them decimal digits. -/
def IsField (w : Nat) (cs : List Char) : Prop := cs.length = w ∧ ∀ c ∈ cs, c.isDigit = true

/-- The handle a fresh `NewLogger("main")` builds when no system sink is installed. -/
def exampleHandle : LogHandle := newHandle none 0 "main"

/-- A clock reading in the year 10000. -/
def year10000 : Time :=
  { year := 10000, month := 1, day := 2, hour := 15, minute := 4, second := 5,
    nanosecond := 0, inRange := by decide }

/-- A record at `InfoLevel` with the message `hi` and no context. -/
def exampleEntry (t : Time) : Entry :=
  { Data := [], Time := t, Level := Level.InfoLevel, Message := "hi" }

/-- A record at `InfoLevel` with the message `y` and no context. -/
def exampleInfoY : Entry :=
  { Data := [], Time := exampleTime, Level := Level.InfoLevel, Message := "y" }

/-- The handle `main` after it has been adapted at `DebugLevel`. -/
def exampleAdapted : LogHandle :=
  { Out := some Writer.Stderr, Hooks := [], Formatter := Formatter.logHandle 0,
    Level := Level.DebugLevel, name := "main", Lvl := some Level.DebugLevel }

/-- The rendering of a context with its keys in the order they were inserted, as the
specification words it. -/
def SprintInsertionOrder (data : Fields) : String :=
  "map[" ++ joinSpace (data.map renderPair) ++ "]"

/-- The context in which `b` was inserted before `a`. -/
def exampleFields : Fields := [("b", Value.str "z"), ("a", Value.int 1)]

instance : IsTotal (String × Value) keyLe := ⟨fun a b => le_total a.1.data b.1.data⟩

instance : IsTrans (String × Value) keyLe :=
  ⟨fun a _ _ h1 h2 => le_trans (a := a.1.data) h1 h2⟩

/-- The sinks a call of `InitLoggers` constructs when every requested construction
succeeds: the remote sink `cw` when region, group and stream name are all non-empty, then
the system sink `sys` when `logToSyslog` is set. -/
def constructed (logToSyslog : Bool) (cwRegion cwGroup cwName : String)
    (cw : CloudwatchHook) (sys : SyslogHook) : List Hook :=
  (if cwRegion ≠ "" ∧ cwGroup ≠ "" ∧ cwName ≠ "" then [Hook.cloudwatch cw] else []) ++
    (if logToSyslog then [Hook.syslog sys] else [])

/-- Whether a sink is a system sink. -/
def Hook.isSyslog : Hook → Bool
  | .syslog _ => true
  | .cloudwatch _ => false

/-- Whether a sink is a remote sink. -/
def Hook.isCloudwatch : Hook → Bool
  | .syslog _ => false
  | .cloudwatch _ => true

/-- An environment in which neither sink can be constructed. -/
def failingEnv : Env :=
  { NewHook := fun _ _ _ => .error "no credentials"
    NewSyslogHook := .error "no daemon"
    cwTime := exampleTime
    sysTime := exampleTime }

/-- Whether a call can be made in a state: `GetStdLogger` needs a handle that exists. -/
def OpValid (s : State) : Op → Prop
  | .getStdLogger l _ => l < s.heap.length
  | _ => True

/-- The library's `sprintlnn`: `fmt.Sprintln` of the operands without its final newline,
which is the operands rendered and joined by single spaces. -/
def Sprintlnn (args : List Value) : String := joinSpace (args.map Value.render)

/-- The library's `Debugln` on the handle at `l`: one record at `DebugLevel` whose message
is `Sprintlnn` of the operands. -/
def Debugln (s : State) (l : Nat) (args : List Value) (t : Time) : Option State :=
  emit s l Level.DebugLevel (Sprintlnn args) t

/-- The method `(*LogHandle).Log`, the entry point for `aws.Logger`. -/
def Log (s : State) (l : Nat) (args : List Value) (t : Time) : Option State :=
  Debugln s l args t

/-- The state after package initialisation with the threshold of `main` set to
`DebugLevel` through the exported field `Level`. -/
def debugState : State :=
  { init with heap := init.heap.set 0 { exampleHandle with Level := Level.DebugLevel } }

/-! ## The attachment loop -/

theorem addHooks_length (hook : Hook) : ∀ (regs : List (String × Nat)) (heap heap1 : List LogHandle),
    addHooks hook regs heap = some heap1 → heap1.length = heap.length := by
  intro regs
  induction regs with
  | nil => intro heap heap1 h; simp [addHooks] at h; subst h; rfl
  | cons np rest ih =>
    intro heap heap1 h
    obtain ⟨n, q⟩ := np
    simp only [addHooks] at h
    cases hq : heap[q]? with
    | none => simp [hq] at h
    | some l =>
      simp only [hq] at h
      have := ih _ _ h
      simpa using this

theorem addHooks_get (hook : Hook) : ∀ (regs : List (String × Nat)) (heap heap1 : List LogHandle),
    addHooks hook regs heap = some heap1 →
    ∀ p : Nat, heap1[p]? = (heap[p]?).map (fun h : LogHandle =>
      { h with Hooks := h.Hooks ++ List.replicate ((regs.map Prod.snd).count p) hook }) := by
  intro regs
  induction regs with
  | nil =>
    intro heap heap1 h p
    simp [addHooks] at h
    subst h
    cases heap[p]? <;> simp
  | cons np rest ih =>
    intro heap heap1 h p
    obtain ⟨n, q⟩ := np
    simp only [addHooks] at h
    cases hq : heap[q]? with
    | none => simp [hq] at h
    | some l =>
      simp only [hq] at h
      rw [ih _ _ h p]
      by_cases hqp : q = p
      · subst hqp
        have hlt : q < heap.length := by
          by_contra hc
          rw [List.getElem?_eq_none (by omega)] at hq
          cases hq
        simp [List.getElem?_set, hlt, hq, List.replicate_succ]
      · simp [List.getElem?_set, hqp, List.count_cons]

theorem addHooks_total (hook : Hook) : ∀ (regs : List (String × Nat)) (heap : List LogHandle),
    (∀ np ∈ regs, np.2 < heap.length) → ∃ heap1, addHooks hook regs heap = some heap1 := by
  intro regs
  induction regs with
  | nil => intro heap _; exact ⟨heap, rfl⟩
  | cons np rest ih =>
    intro heap hv
    obtain ⟨n, q⟩ := np
    have hq : q < heap.length := hv (n, q) (by simp)
    simp only [addHooks, List.getElem?_eq_getElem hq]
    apply ih
    intro np hnp
    simpa using hv np (by simp [hnp])

/-! ## Emission -/

theorem emit_frame (s s1 : State) (l : Nat) (level : Level) (msg : String) (t : Time)
    (h : emit s l level msg t = some s1) : SameButWritten s s1 := by
  unfold emit at h
  split at h
  · cases h
  · split at h
    · split at h
      · split at h
        · cases h
        · cases h; exact ⟨rfl, rfl, rfl, rfl, rfl⟩
      · cases h
    · cases h; exact ⟨rfl, rfl, rfl, rfl, rfl⟩

theorem Println_frame (s s1 : State) (l : Option Nat) (msg : String) (t : Time)
    (h : Println s l msg t = some s1) : SameButWritten s s1 := by
  unfold Println at h
  split at h
  · cases h
  · exact emit_frame _ _ _ _ _ _ h

theorem emit_total (s : State) (hinv : Inv s) (l : Nat) (hl : l < s.heap.length) (level : Level)
    (msg : String) (t : Time) : ∃ s1, emit s l level msg t = some s1 := by
  obtain ⟨hf, -⟩ := hinv
  have hget : s.heap[l]? = some s.heap[l] := List.getElem?_eq_getElem hl
  obtain ⟨hfm, hout⟩ := hf l _ hget
  unfold emit
  simp only [hget, hfm, hout]
  split
  · exact ⟨_, rfl⟩
  · exact ⟨_, rfl⟩

theorem lookup_some_mem {l : List (String × Nat)} {k : String} {b : Nat}
    (h : l.lookup k = some b) : (k, b) ∈ l := by
  obtain ⟨l1, l2, rfl, -⟩ := List.lookup_eq_some_iff.1 h
  simp

theorem registry_valid (s : State) (hinv : Inv s) : ∀ np ∈ s.loggers, np.2 < s.heap.length := by
  intro np hnp
  have hmem : np.2 ∈ s.loggers.map Prod.snd := List.mem_map.2 ⟨_, hnp, rfl⟩
  rw [hinv.2.1] at hmem
  exact List.mem_range.1 hmem

theorem log_valid (s : State) (hinv : Inv s) : ∃ p, s.log = some p ∧ p < s.heap.length := by
  obtain ⟨p, hp, hlook⟩ := hinv.2.2.2.2.1
  exact ⟨p, hp, registry_valid s hinv _ (lookup_some_mem hlook)⟩

/-! ## The two statements of InitLoggers -/

theorem withHooks_nil (h : LogHandle) : withHooks [] h = h := by
  simp [withHooks]

theorem Attached_of_frame (s s1 : State) (hf : SameButWritten s s1) :
    Attached (fun _ => []) s s1 := by
  obtain ⟨h1, h2, h3, h4, h5⟩ := hf
  refine ⟨h2, h3, h4, h5, by rw [h1], ?_⟩
  intro p
  rw [h1]
  cases s.heap[p]? <;> simp [withHooks_nil]

theorem Attached_of_addHooks (s : State) (hook : Hook) (heap : List LogHandle)
    (ha : addHooks hook s.loggers s.heap = some heap) :
    Attached (fun p => List.replicate ((s.loggers.map Prod.snd).count p) hook) s
      { s with heap := heap } := by
  refine ⟨rfl, rfl, rfl, rfl, addHooks_length _ _ _ _ ha, ?_⟩
  intro p
  exact addHooks_get _ _ _ _ ha p

theorem initCloudwatch_spec (s s1 : State) (env : Env) (r g n : String)
    (h : initCloudwatch s env r g n = some s1) :
    Attached (fun p => cwAdded env r g n ((s.loggers.map Prod.snd).count p)) s s1 := by
  unfold initCloudwatch at h
  unfold cwAdded
  by_cases hc : r ≠ "" ∧ g ≠ "" ∧ n ≠ ""
  · rw [if_pos hc] at h
    simp only [if_pos hc]
    cases hk : env.NewHook g n r with
    | error err =>
      rw [hk] at h
      exact Attached_of_frame _ _ (Println_frame _ _ _ _ _ h)
    | ok hook =>
      rw [hk] at h
      cases ha : addHooks (Hook.cloudwatch hook) s.loggers s.heap with
      | none => simp [ha] at h
      | some heap =>
        simp only [ha, Option.some.injEq] at h
        subst h
        exact Attached_of_addHooks s _ heap ha
  · rw [if_neg hc] at h
    simp only [if_neg hc]
    cases h
    exact Attached_of_frame _ _ ⟨rfl, rfl, rfl, rfl, rfl⟩

theorem initSyslog_spec (s s1 : State) (env : Env) (b : Bool)
    (h : initSyslog s env b = some s1) :
    Attached (fun p => sysAdded env b ((s.loggers.map Prod.snd).count p)) s s1 := by
  unfold initSyslog at h
  unfold sysAdded
  by_cases hc : b = true
  · rw [if_pos hc] at h
    simp only [if_pos hc]
    cases hk : env.NewSyslogHook with
    | error err =>
      rw [hk] at h
      exact Attached_of_frame _ _ (Println_frame _ _ _ _ _ h)
    | ok hook =>
      rw [hk] at h
      cases ha : addHooks (Hook.syslog hook) s.loggers s.heap with
      | none => simp [ha] at h
      | some heap =>
        simp only [ha, Option.some.injEq] at h
        subst h
        exact Attached_of_addHooks s _ heap ha
  · rw [if_neg hc] at h
    simp only [if_neg hc]
    cases h
    exact Attached_of_frame _ _ ⟨rfl, rfl, rfl, rfl, rfl⟩

theorem Attached_trans (e1 e2 : Nat → List Hook) (s s1 s2 : State)
    (h1 : Attached e1 s s1) (h2 : Attached e2 s1 s2) :
    Attached (fun p => e1 p ++ e2 p) s s2 := by
  obtain ⟨a1, a2, a3, a4, a5, a6⟩ := h1
  obtain ⟨b1, b2, b3, b4, b5, b6⟩ := h2
  refine ⟨b1.trans a1, b2.trans a2, b3.trans a3, b4.trans a4, b5.trans a5, ?_⟩
  intro p
  rw [b6 p, a6 p]
  cases s.heap[p]? <;> simp [withHooks]

theorem InitLoggers_spec (s s1 : State) (env : Env) (b : Bool) (r g n : String)
    (h : InitLoggers s env b r g n = some s1) :
    Attached (fun p => addedHooks env b r g n ((s.loggers.map Prod.snd).count p)) s s1 := by
  unfold InitLoggers at h
  cases hc : initCloudwatch s env r g n with
  | none => simp [hc] at h
  | some sa =>
    simp only [hc] at h
    have h1 := initCloudwatch_spec _ _ _ _ _ _ hc
    have h2 := initSyslog_spec _ _ _ _ h
    rw [h1.1] at h2
    exact Attached_trans _ _ _ _ _ h1 h2

/-! ## InitLoggers preserves the invariant and returns -/

theorem Inv_of_Attached (e : Nat → List Hook) (s s1 : State) (hinv : Inv s)
    (ha : Attached e s s1) : Inv s1 := by
  obtain ⟨i1, i2, i3, i4, i5, i6, i7⟩ := hinv
  obtain ⟨a1, a2, a3, a4, a5, a6⟩ := ha
  refine ⟨?_, ?_, ?_, ?_, ?_, ?_, ?_⟩
  · intro p h hp
    rw [a6 p] at hp
    cases hs : s.heap[p]? with
    | none => simp [hs] at hp
    | some h0 =>
      simp only [hs, Option.map_some', Option.some.injEq] at hp
      subst hp
      exact i1 p h0 hs
  · rw [a1, a5]; exact i2
  · rw [a1]; exact i3
  · intro np hnp
    rw [a1] at hnp
    obtain ⟨h0, hh0, hn⟩ := i4 np hnp
    exact ⟨withHooks (e np.2) h0, by rw [a6, hh0]; rfl, hn⟩
  · rw [a1, a2]; exact i5
  · rw [a1, a3]; exact i6
  · rw [a4]; exact i7

theorem Println_log_total (s : State) (hinv : Inv s) (msg : String) (t : Time) :
    ∃ s1, Println s s.log msg t = some s1 := by
  obtain ⟨p, hp, hlt⟩ := log_valid s hinv
  rw [hp]
  exact emit_total s hinv p hlt _ _ _

theorem initCloudwatch_total (s : State) (hinv : Inv s) (env : Env) (r g n : String) :
    ∃ s1, initCloudwatch s env r g n = some s1 := by
  unfold initCloudwatch
  split
  · split
    · exact Println_log_total s hinv _ _
    · obtain ⟨heap, hh⟩ := addHooks_total (Hook.cloudwatch ‹_›) s.loggers s.heap
        (registry_valid s hinv)
      exact ⟨_, by rw [hh]⟩
  · exact ⟨s, rfl⟩

theorem initSyslog_total (s : State) (hinv : Inv s) (env : Env) (b : Bool) :
    ∃ s1, initSyslog s env b = some s1 := by
  unfold initSyslog
  split
  · split
    · exact Println_log_total s hinv _ _
    · obtain ⟨heap, hh⟩ := addHooks_total (Hook.syslog ‹_›) s.loggers s.heap
        (registry_valid s hinv)
      exact ⟨_, by rw [hh]⟩
  · exact ⟨s, rfl⟩

theorem InitLoggers_total (s : State) (hinv : Inv s) (env : Env) (b : Bool) (r g n : String) :
    ∃ s1, InitLoggers s env b r g n = some s1 := by
  obtain ⟨sa, hsa⟩ := initCloudwatch_total s hinv env r g n
  have hinva := Inv_of_Attached _ _ _ hinv (initCloudwatch_spec _ _ _ _ _ _ hsa)
  obtain ⟨sb, hsb⟩ := initSyslog_total sa hinva env b
  exact ⟨sb, by unfold InitLoggers; rw [hsa]; exact hsb⟩

theorem InitLoggers_Inv (s s1 : State) (hinv : Inv s) (env : Env) (b : Bool) (r g n : String)
    (h : InitLoggers s env b r g n = some s1) : Inv s1 :=
  Inv_of_Attached _ _ _ hinv (InitLoggers_spec _ _ _ _ _ _ _ h)

/-! ## GetLogger -/

theorem NewLogger_eq (s : State) (name : String) :
    NewLogger s name =
      ({ s with heap := s.heap ++ [newHandle s.syslogHook s.heap.length name] },
        s.heap.length) := by
  unfold NewLogger newHandle
  cases s.syslogHook <;> rfl

theorem GetLogger_hit (s : State) (name : String) (p : Nat)
    (h : s.loggers.lookup name = some p) : GetLogger s name = (s, p) := by
  simp [GetLogger, h]

theorem GetLogger_miss (s : State) (name : String) (h : s.loggers.lookup name = none) :
    GetLogger s name =
      ({ s with heap := s.heap ++ [newHandle s.syslogHook s.heap.length name],
                loggers := s.loggers ++ [(name, s.heap.length)] }, s.heap.length) := by
  simp [GetLogger, h, NewLogger_eq]

theorem getElem?_append_one (heap : List LogHandle) (l h : LogHandle) (p : Nat)
    (hp : (heap ++ [l])[p]? = some h) :
    heap[p]? = some h ∨ (p = heap.length ∧ h = l) := by
  by_cases hlt : p < heap.length
  · left
    rw [List.getElem?_append_left hlt] at hp
    exact hp
  · right
    rw [List.getElem?_append_right (by omega)] at hp
    cases hq : p - heap.length with
    | zero =>
      rw [hq] at hp
      simp at hp
      exact ⟨by omega, hp.symm⟩
    | succ k =>
      rw [hq] at hp
      simp at hp

theorem getElem?_append_of_some (heap : List LogHandle) (l h : LogHandle) (p : Nat)
    (hp : heap[p]? = some h) : (heap ++ [l])[p]? = some h := by
  have hlt : p < heap.length := by
    by_contra hc
    rw [List.getElem?_eq_none (by omega)] at hp
    cases hp
  rw [List.getElem?_append_left hlt]
  exact hp

theorem GetLogger_Inv (s : State) (hinv : Inv s) (name : String) : Inv (GetLogger s name).1 := by
  cases hl : s.loggers.lookup name with
  | some p => rw [GetLogger_hit s name p hl]; exact hinv
  | none =>
    rw [GetLogger_miss s name hl]
    obtain ⟨i1, i2, i3, i4, i5, i6, i7⟩ := hinv
    refine ⟨?_, ?_, ?_, ?_, ?_, ?_, ?_⟩
    · intro p h hp
      rcases getElem?_append_one _ _ _ _ hp with h0 | ⟨rfl, rfl⟩
      · exact i1 p h h0
      · exact ⟨rfl, rfl⟩
    · simp [List.range_succ, i2]
    · simp only [List.map_append, List.map_cons, List.map_nil]
      rw [List.nodup_append]
      refine ⟨i3, by simp, ?_⟩
      intro a ha hb
      simp only [List.mem_singleton] at hb
      subst hb
      obtain ⟨np, hnp, rfl⟩ := List.mem_map.1 ha
      have := List.lookup_eq_none_iff.1 hl np hnp
      simp at this
    · intro np hnp
      simp only [List.mem_append, List.mem_singleton] at hnp
      rcases hnp with hnp | rfl
      · obtain ⟨h0, hh0, hn⟩ := i4 np hnp
        exact ⟨h0, getElem?_append_of_some _ _ _ _ hh0, hn⟩
      · exact ⟨newHandle s.syslogHook s.heap.length name, by simp, rfl⟩
    · obtain ⟨p, hp, hlook⟩ := i5
      exact ⟨p, hp, by simp [List.lookup_append, hlook]⟩
    · obtain ⟨p, hp, hlook⟩ := i6
      exact ⟨p, hp, by simp [List.lookup_append, hlook]⟩
    · exact i7

/-! ## GetStdLogger and the invariant -/

theorem GetStdLogger_eq (s : State) (hinv : Inv s) (l : Nat) (h : LogHandle)
    (hl : s.heap[l]? = some h) (lvl : Level) :
    GetStdLogger s l lvl =
      some ({ s with heap := s.heap.set l { h with Lvl := some lvl, Level := lvl } },
        { out := LoggerWriter l, linePrefix := "", flag := 0 }) := by
  have hlt : l < s.heap.length := by
    by_contra hc
    rw [List.getElem?_eq_none (by omega)] at hl
    cases hl
  obtain ⟨hf, -⟩ := hinv.1 l h hl
  unfold GetStdLogger
  simp only [hl, hf]
  simp [List.getElem?_set, hlt]

theorem GetStdLogger_total (s : State) (hinv : Inv s) (l : Nat) (hlt : l < s.heap.length)
    (lvl : Level) : ∃ r, GetStdLogger s l lvl = some r :=
  ⟨_, GetStdLogger_eq s hinv l s.heap[l] (List.getElem?_eq_getElem hlt) lvl⟩

theorem set_Inv (s : State) (hinv : Inv s) (l : Nat) (h h1 : LogHandle)
    (hl : s.heap[l]? = some h) (hf : h1.Formatter = h.Formatter) (ho : h1.Out = h.Out)
    (hn : h1.name = h.name) : Inv { s with heap := s.heap.set l h1 } := by
  obtain ⟨i1, i2, i3, i4, i5, i6, i7⟩ := hinv
  refine ⟨?_, ?_, i3, ?_, i5, i6, i7⟩
  · intro p x hp
    simp only [List.getElem?_set] at hp
    split at hp
    · split at hp
      · cases hp
        subst ‹l = p›
        rw [hf, ho]
        exact i1 l h hl
      · cases hp
    · exact i1 p x hp
  · simpa using i2
  · intro np hnp
    obtain ⟨h0, hh0, hn0⟩ := i4 np hnp
    by_cases hq : l = np.2
    · have : h0 = h := by
        rw [← hq, hl] at hh0
        exact (Option.some.inj hh0).symm
      subst this
      have hlt : l < s.heap.length := by
        by_contra hc
        rw [List.getElem?_eq_none (by omega)] at hl
        cases hl
      exact ⟨h1, by rw [← hq]; simp [List.getElem?_set, hlt], by rw [hn, hn0]⟩
    · exact ⟨h0, by simp [List.getElem?_set, hq, hh0], hn0⟩

theorem GetStdLogger_Inv (s : State) (hinv : Inv s) (l : Nat) (lvl : Level)
    (r : State × StdLogger) (h : GetStdLogger s l lvl = some r) : Inv r.1 := by
  cases hl : s.heap[l]? with
  | none => simp [GetStdLogger, hl] at h
  | some x =>
    rw [GetStdLogger_eq s hinv l x hl lvl] at h
    cases h
    exact set_Inv s hinv l x _ hl rfl rfl rfl

theorem Inv_init : Inv init := by
  refine ⟨?_, by decide, by decide, ?_, ⟨0, rfl, by decide⟩, ⟨1, rfl, by decide⟩, rfl⟩
  · intro p h hp
    match p, hp with
    | 0, hp => cases hp; exact ⟨rfl, rfl⟩
    | 1, hp => cases hp; exact ⟨rfl, rfl⟩
    | (k + 2), hp => cases hp
  · intro np hnp
    have hreg : init.loggers = [("main", 0), ("fuse", 1)] := by decide
    have : np = ("main", 0) ∨ np = ("fuse", 1) := by
      rw [hreg] at hnp
      simpa using hnp
    rcases this with rfl | rfl
    · exact ⟨_, rfl, rfl⟩
    · exact ⟨_, rfl, rfl⟩

theorem step_Inv (s s1 : State) (hinv : Inv s) (op : Op) (h : step s op = some s1) : Inv s1 := by
  cases op with
  | getLogger name =>
    simp only [step, Option.some.injEq] at h
    subst h
    exact GetLogger_Inv s hinv name
  | initLoggers env b r g n => exact InitLoggers_Inv s s1 hinv env b r g n h
  | getStdLogger l lvl =>
    simp only [step, Option.map_eq_some'] at h
    obtain ⟨r, hr, rfl⟩ := h
    exact GetStdLogger_Inv s hinv l lvl r hr

theorem run_Inv (ops : List Op) : ∀ (s s1 : State), Inv s → run s ops = some s1 → Inv s1 := by
  induction ops with
  | nil => intro s s1 hinv h; simp only [run, Option.some.injEq] at h; subst h; exact hinv
  | cons op ops ih =>
    intro s s1 hinv h
    simp only [run] at h
    cases hs : step s op with
    | none => simp [hs] at h
    | some sa =>
      simp only [hs] at h
      exact ih sa s1 (step_Inv s sa hinv op hs) h

theorem Reachable_Inv (s : State) (h : Reachable s) : Inv s := by
  obtain ⟨ops, hops⟩ := h
  exact run_Inv ops init s Inv_init hops

/-! ## C1: one handle per name -/

theorem GetStdLogger_loggers (s : State) (l : Nat) (lvl : Level) (r : State × StdLogger)
    (h : GetStdLogger s l lvl = some r) : r.1.loggers = s.loggers := by
  unfold GetStdLogger at h
  split at h
  · cases h
  · split at h
    · split at h
      · cases h
      · simp only at h
        split at h
        · cases h
        · cases h; rfl
    · cases h

theorem step_loggers_lookup (s s1 : State) (op : Op) (h : step s op = some s1) (name : String)
    (p : Nat) (hl : s.loggers.lookup name = some p) : s1.loggers.lookup name = some p := by
  cases op with
  | getLogger n =>
    simp only [step, Option.some.injEq] at h
    subst h
    cases hn : s.loggers.lookup n with
    | some q => rw [GetLogger_hit s n q hn]; exact hl
    | none =>
      rw [GetLogger_miss s n hn]
      simp [List.lookup_append, hl]
  | initLoggers env b r g n =>
    rw [(InitLoggers_spec _ _ _ _ _ _ _ h).1]
    exact hl
  | getStdLogger l lvl =>
    simp only [step, Option.map_eq_some'] at h
    obtain ⟨r, hr, rfl⟩ := h
    rw [GetStdLogger_loggers s l lvl r hr]
    exact hl

theorem run_loggers_lookup (ops : List Op) : ∀ (s s1 : State), run s ops = some s1 →
    ∀ (name : String) (p : Nat), s.loggers.lookup name = some p →
      s1.loggers.lookup name = some p := by
  induction ops with
  | nil => intro s s1 h name p hl; simp only [run, Option.some.injEq] at h; subst h; exact hl
  | cons op ops ih =>
    intro s s1 h name p hl
    simp only [run] at h
    cases hs : step s op with
    | none => simp [hs] at h
    | some sa =>
      simp only [hs] at h
      exact ih sa s1 h name p (step_loggers_lookup s sa op hs name p hl)

theorem GetLogger_registered (s : State) (name : String) :
    (GetLogger s name).1.loggers.lookup name = some (GetLogger s name).2 := by
  cases hn : s.loggers.lookup name with
  | some q => rw [GetLogger_hit s name q hn]; exact hn
  | none =>
    rw [GetLogger_miss s name hn]
    simp [List.lookup_append, hn]

/-- C1: for every state and every name, a second `GetLogger` on the name returns the handle
the first one returned, whatever calls of `GetLogger`, `InitLoggers` and `GetStdLogger` ran
in between, and the second call leaves the state, the registry included, as it found it. -/
theorem GetLogger_same_handle (s : State) (name : String) (ops : List Op) (s2 : State)
    (hrun : run (GetLogger s name).1 ops = some s2) :
    GetLogger s2 name = (s2, (GetLogger s name).2) :=
  GetLogger_hit s2 name _
    (run_loggers_lookup ops _ s2 hrun name _ (GetLogger_registered s name))

theorem GetLogger_same_handle_witness :
    ∃ s2, run (GetLogger init "x").1 exampleOps = some s2 ∧ s2.heap.length = 4 ∧
      GetLogger s2 "x" = (s2, 2) :=
  ⟨_, rfl, by decide, GetLogger_same_handle init "x" exampleOps _ rfl⟩

/-! ## The timestamp -/

theorem digitChar_isDigit : ∀ k, k < 10 → (Nat.digitChar k).isDigit = true := by decide

theorem toDigitsCore_isDigit : ∀ (fuel n : Nat) (acc : List Char),
    (∀ c ∈ acc, c.isDigit = true) → ∀ c ∈ Nat.toDigitsCore 10 fuel n acc, c.isDigit = true := by
  intro fuel
  induction fuel with
  | zero => intro n acc hacc c hc; simpa [Nat.toDigitsCore] using hacc c hc
  | succ f ih =>
    intro n acc hacc c hc
    have hd : (Nat.digitChar (n % 10)).isDigit = true :=
      digitChar_isDigit _ (Nat.mod_lt _ (by decide))
    have hacc1 : ∀ c ∈ Nat.digitChar (n % 10) :: acc, c.isDigit = true := by
      intro c hc
      rcases List.mem_cons.1 hc with rfl | hc
      · exact hd
      · exact hacc c hc
    simp only [Nat.toDigitsCore] at hc
    split at hc
    · exact hacc1 c hc
    · exact ih _ _ hacc1 c hc

theorem toDigits_isDigit (n : Nat) : ∀ c ∈ Nat.toDigits 10 n, c.isDigit = true :=
  toDigitsCore_isDigit _ _ [] (by simp)

theorem padDigits_isDigit (n w : Nat) : ∀ c ∈ padDigits n w, c.isDigit = true := by
  intro c hc
  simp only [padDigits, List.mem_append] at hc
  rcases hc with hc | hc
  · rw [(List.mem_replicate.1 hc).2]; decide
  · exact toDigits_isDigit n c hc

theorem padDigits_length (n w : Nat) (hw : 0 < w) (hn : n < 10 ^ w) :
    (padDigits n w).length = w := by
  have := Nat.toDigitsCore_length 10 (by decide) (n + 1) n w hn hw
  simp only [padDigits, List.length_append, List.length_replicate, Nat.toDigits]
  omega

theorem padDigits_IsField (n w : Nat) (hw : 0 < w) (hn : n < 10 ^ w) : IsField w (padDigits n w) :=
  ⟨padDigits_length n w hw hn, padDigits_isDigit n w⟩

theorem appendInt_nat (n w : Nat) : appendInt (n : Int) w = String.mk (padDigits n w) := by
  have : ¬ ((n : Int) < 0) := by omega
  simp [appendInt, this]

theorem mk_append (a b : List Char) : String.mk a ++ String.mk b = String.mk (a ++ b) := rfl

theorem Time_Format_fields (t : Time) (hy : 0 ≤ t.year ∧ t.year ≤ 9999) :
    t.Format = String.mk (padDigits t.year.natAbs 4 ++ '/' :: padDigits t.month 2 ++
        '/' :: padDigits t.day 2 ++ ' ' :: padDigits t.hour 2 ++ ':' :: padDigits t.minute 2 ++
        ':' :: padDigits t.second 2 ++ '.' :: (padDigits t.nanosecond 9).take 6) ∧
      IsField 4 (padDigits t.year.natAbs 4) ∧ IsField 2 (padDigits t.month 2) ∧
      IsField 2 (padDigits t.day 2) ∧ IsField 2 (padDigits t.hour 2) ∧
      IsField 2 (padDigits t.minute 2) ∧ IsField 2 (padDigits t.second 2) ∧
      IsField 6 ((padDigits t.nanosecond 9).take 6) := by
  obtain ⟨h1, h2, h3, h4, h5, h6, h7, h8⟩ := t.inRange
  have hyn : t.year = (t.year.natAbs : Int) := by omega
  refine ⟨?_, padDigits_IsField _ _ (by decide) (by omega), padDigits_IsField _ _ (by decide) (by omega),
    padDigits_IsField _ _ (by decide) (by omega), padDigits_IsField _ _ (by decide) (by omega),
    padDigits_IsField _ _ (by decide) (by omega), padDigits_IsField _ _ (by decide) (by omega), ?_, ?_⟩
  · unfold Time.Format formatNano
    rw [hyn]
    simp only [appendInt_nat, Int.natAbs_ofNat]
    apply String.ext
    simp [String.data_append]
  · rw [List.length_take, padDigits_length _ _ (by decide) (by omega)]
    rfl
  · intro c hc
    exact padDigits_isDigit _ _ c (List.mem_of_mem_take hc)

theorem Time_Format_length (t : Time) (hy : 0 ≤ t.year ∧ t.year ≤ 9999) : t.Format.length = 26 := by
  obtain ⟨he, f1, f2, f3, f4, f5, f6, f7⟩ := Time_Format_fields t hy
  rw [he]
  simp [String.length, f1.1, f2.1, f3.1, f4.1, f5.1, f6.1, f7.1]

/-! ## C2: the plain line -/

/-- C2 (as stated, refuted): for a record whose time lies in the year 10000 the line starts
with a timestamp of 27 characters, so it is not a 26-character timestamp followed by
` main.INFO hi` and the newline. -/
theorem Format_year_10000 :
    (Format none exampleHandle (exampleEntry year10000)).1 =
        "10000/01/02 15:04:05.000000 main.INFO hi\n" ∧
      ¬ ∃ ts : String, ts.length = 26 ∧
        (Format none exampleHandle (exampleEntry year10000)).1 =
          ts ++ " " ++ "main" ++ "." ++ ToUpper (levelString Level.InfoLevel) ++ " " ++ "hi" ++ "\n" := by
  refine ⟨by decide, ?_⟩
  rintro ⟨ts, hlen, heq⟩
  have h1 : (Format none exampleHandle (exampleEntry year10000)).1.length = 41 := by decide
  have h2 := congrArg String.length heq
  rw [h1] at h2
  have h3 : (ToUpper (levelString Level.InfoLevel)).length = 4 := by decide
  simp only [String.length_append, hlen, h3] at h2
  revert h2
  decide

/-- C2 (amended): with no system sink installed, for a handle with no level override and a
record with empty context whose time has a year from 0 to 9999, `Format` returns no error
and exactly the timestamp, a space, the name, a dot, the upper-case level name, a space,
the message and a newline; the timestamp has 26 characters: four digits of year, two each of
month, day, hour, minute and second, and six of the fraction, with the separators
`/ / space : : .` between them. -/
theorem Format_plain (l : LogHandle) (e : Entry) (hl : l.Lvl = none) (hd : e.Data = [])
    (hy : 0 ≤ e.Time.year ∧ e.Time.year ≤ 9999) :
    Format none l e =
        (e.Time.Format ++ " " ++ l.name ++ "." ++ ToUpper (levelString e.Level) ++ " " ++
          e.Message ++ "\n", none) ∧
      e.Time.Format.length = 26 ∧
      ∃ Y Mo D H Mi S U : List Char,
        IsField 4 Y ∧ IsField 2 Mo ∧ IsField 2 D ∧ IsField 2 H ∧ IsField 2 Mi ∧ IsField 2 S ∧
        IsField 6 U ∧
        e.Time.Format =
          String.mk (Y ++ '/' :: Mo ++ '/' :: D ++ ' ' :: H ++ ':' :: Mi ++ ':' :: S ++ '.' :: U) := by
  refine ⟨?_, Time_Format_length e.Time hy, ?_⟩
  · simp [Format, hl, hd]
  · obtain ⟨he, f1, f2, f3, f4, f5, f6, f7⟩ := Time_Format_fields e.Time hy
    exact ⟨_, _, _, _, _, _, _, f1, f2, f3, f4, f5, f6, f7, he⟩

theorem Format_plain_witness :
    Format none exampleHandle (exampleEntry exampleTime) =
        ("2025/01/02 15:04:05.123456 main.INFO hi\n", none) ∧
      exampleTime.Format.length = 26 :=
  ⟨(Format_plain exampleHandle (exampleEntry exampleTime) rfl rfl (by decide)).1,
    (Format_plain exampleHandle (exampleEntry exampleTime) rfl rfl (by decide)).2.1⟩

/-! ## C3 and C4: the system-sink variable is never assigned -/

/-- C3 (the code at the failing input): in a fresh process, after `InitLoggers(true, "", "", "")`
has constructed the system sink and attached it to `main`, the variable `syslogHook` is
still nil, and `Format` on the handle `GetLogger("main")` renders an `InfoLevel` record with
message `hi` with the timestamp in front, not as `main.INFO hi` and a newline. -/
theorem InitLoggers_keeps_timestamp :
    ∃ s1 h, InitLoggers init exampleEnv true "" "" "" = some s1 ∧
      s1.syslogHook = none ∧
      (GetLogger s1 "main").1.heap[(GetLogger s1 "main").2]? = some h ∧
      h.Hooks = [Hook.syslog { id := 0 }] ∧
      (Format s1.syslogHook h (exampleEntry exampleTime)).1 =
        "2025/01/02 15:04:05.123456 main.INFO hi\n" ∧
      (Format s1.syslogHook h (exampleEntry exampleTime)).1 ≠ "main.INFO hi\n" :=
  ⟨_, _, rfl, rfl, rfl, rfl, by decide, by decide⟩

/-- C4 (the code at the failing input): in a fresh process, after `InitLoggers(true, "", "", "")`
has constructed the system sink and attached it to the two registered handles, the handle
`GetLogger("x")` creates for the new name `x` has no sink at all. -/
theorem GetLogger_after_InitLoggers_no_sink :
    ∃ s1 h, InitLoggers init exampleEnv true "" "" "" = some s1 ∧
      s1.loggers.lookup "x" = none ∧
      (GetLogger s1 "x").1.heap[(GetLogger s1 "x").2]? = some h ∧
      h.name = "x" ∧ h.Hooks = [] ∧ Hook.syslog { id := 0 } ∉ h.Hooks :=
  ⟨_, _, rfl, by decide, rfl, rfl, rfl, by decide⟩

/-! ## C5 and C6: attachment to the handles present -/

theorem count_pos_of_registered (s : State) (np : String × Nat) (hnp : np ∈ s.loggers) :
    0 < (s.loggers.map Prod.snd).count np.2 :=
  List.count_pos_iff.2 (List.mem_map.2 ⟨np, hnp, rfl⟩)

theorem registered_some (s : State) (hinv : Inv s) (np : String × Nat) (hnp : np ∈ s.loggers) :
    ∃ h, s.heap[np.2]? = some h :=
  ⟨_, List.getElem?_eq_getElem (registry_valid s hinv np hnp)⟩

/-- C5: from every reachable state, when `InitLoggers(true, "", "", "")` constructs the system
sink, the call returns and every handle that was in the registry at the call has the system
sink among its sinks afterwards. -/
theorem InitLoggers_attaches_syslog (s : State) (hs : Reachable s) (env : Env)
    (hook : SyslogHook) (hok : env.NewSyslogHook = .ok hook) :
    ∃ s1, InitLoggers s env true "" "" "" = some s1 ∧
      ∀ np ∈ s.loggers, ∃ h, s1.heap[np.2]? = some h ∧ Hook.syslog hook ∈ h.Hooks := by
  have hinv := Reachable_Inv s hs
  obtain ⟨s1, h1⟩ := InitLoggers_total s hinv env true "" "" ""
  refine ⟨s1, h1, ?_⟩
  intro np hnp
  obtain ⟨h0, hh0⟩ := registered_some s hinv np hnp
  have hsp := (InitLoggers_spec _ _ _ _ _ _ _ h1).2.2.2.2.2 np.2
  rw [hh0] at hsp
  refine ⟨_, hsp, ?_⟩
  have hc := count_pos_of_registered s np hnp
  simp only [withHooks, addedHooks, sysAdded, hok, List.mem_append]
  right; right
  simp only [if_true, List.mem_replicate]
  exact ⟨by omega, trivial⟩

theorem InitLoggers_attaches_syslog_witness :
    ∃ s1, InitLoggers init exampleEnv true "" "" "" = some s1 ∧
      ∀ np ∈ init.loggers, ∃ h, s1.heap[np.2]? = some h ∧ Hook.syslog { id := 0 } ∈ h.Hooks :=
  InitLoggers_attaches_syslog init ⟨[], rfl⟩ exampleEnv { id := 0 } rfl

/-- C6: from every reachable state and for non-empty region, group and stream name, when
`InitLoggers(false, r, g, s)` constructs the remote sink, the call returns, every handle
that was in the registry at the call carries the remote sink afterwards, and for every name
absent from the registry at the call the handle `GetLogger` then creates for it is a new one
that does not carry the remote sink. -/
theorem InitLoggers_remote_present_only (s : State) (hs : Reachable s) (env : Env)
    (r g n : String) (hr : r ≠ "") (hg : g ≠ "") (hn : n ≠ "") (hook : CloudwatchHook)
    (hok : env.NewHook g n r = .ok hook) :
    ∃ s1, InitLoggers s env false r g n = some s1 ∧
      (∀ np ∈ s.loggers, ∃ h, s1.heap[np.2]? = some h ∧ Hook.cloudwatch hook ∈ h.Hooks) ∧
      ∀ name, s.loggers.lookup name = none →
        (GetLogger s1 name).2 = s1.heap.length ∧
        ∃ h, (GetLogger s1 name).1.heap[(GetLogger s1 name).2]? = some h ∧
          Hook.cloudwatch hook ∉ h.Hooks := by
  have hinv := Reachable_Inv s hs
  obtain ⟨s1, h1⟩ := InitLoggers_total s hinv env false r g n
  have hsp := InitLoggers_spec _ _ _ _ _ _ _ h1
  refine ⟨s1, h1, ?_, ?_⟩
  · intro np hnp
    obtain ⟨h0, hh0⟩ := registered_some s hinv np hnp
    have hp := hsp.2.2.2.2.2 np.2
    rw [hh0] at hp
    refine ⟨_, hp, ?_⟩
    have hc := count_pos_of_registered s np hnp
    simp only [withHooks, addedHooks, cwAdded, hok, List.mem_append]
    right; left
    rw [if_pos ⟨hr, hg, hn⟩]
    simp only [List.mem_replicate]
    exact ⟨by omega, trivial⟩
  · intro name hname
    have hl1 : s1.loggers.lookup name = none := by rw [hsp.1]; exact hname
    rw [GetLogger_miss s1 name hl1]
    refine ⟨rfl, newHandle s1.syslogHook s1.heap.length name, by simp, ?_⟩
    unfold newHandle
    cases s1.syslogHook <;> simp

theorem InitLoggers_remote_present_only_witness :
    ∃ s1, InitLoggers init exampleEnv false "r" "g" "s" = some s1 ∧
      (∀ np ∈ init.loggers, ∃ h, s1.heap[np.2]? = some h ∧
        Hook.cloudwatch { id := 1 } ∈ h.Hooks) ∧
      ∀ name, init.loggers.lookup name = none →
        (GetLogger s1 name).2 = s1.heap.length ∧
        ∃ h, (GetLogger s1 name).1.heap[(GetLogger s1 name).2]? = some h ∧
          Hook.cloudwatch { id := 1 } ∉ h.Hooks :=
  InitLoggers_remote_present_only init ⟨[], rfl⟩ exampleEnv "r" "g" "s" (by decide) (by decide)
    (by decide) { id := 1 } rfl

/-! ## Handles keep their fields -/

theorem Format_eq (sh : Option SyslogHook) (l : LogHandle) (e : Entry) :
    Format sh l e =
      ((if sh = none then e.Time.Format ++ " " else "") ++ l.name ++ "." ++
        ToUpper (levelString (l.Lvl.getD e.Level)) ++ " " ++ e.Message ++
        (if e.Data.length ≠ 0 then " " ++ Sprint e.Data else "") ++ "\n", none) := by
  unfold Format
  cases l.Lvl <;> by_cases hd : e.Data.length ≠ 0 <;> simp [hd, String.append_assoc]

theorem step_keeps (s s1 : State) (hinv : Inv s) (op : Op) (hstep : step s op = some s1)
    (p : Nat) (hop : ∀ lvl, op ≠ Op.getStdLogger p lvl) (h : LogHandle)
    (hp : s.heap[p]? = some h) :
    ∃ h1, s1.heap[p]? = some h1 ∧ h1.Lvl = h.Lvl ∧ h1.Level = h.Level ∧ h1.name = h.name ∧
      h1.Formatter = h.Formatter ∧ h1.Out = h.Out ∧ h.Hooks <+: h1.Hooks := by
  cases op with
  | getLogger n =>
    simp only [step, Option.some.injEq] at hstep
    subst hstep
    cases hn : s.loggers.lookup n with
    | some q =>
      rw [GetLogger_hit s n q hn]
      exact ⟨h, hp, rfl, rfl, rfl, rfl, rfl, List.prefix_refl _⟩
    | none =>
      rw [GetLogger_miss s n hn]
      exact ⟨h, getElem?_append_of_some _ _ _ _ hp, rfl, rfl, rfl, rfl, rfl, List.prefix_refl _⟩
  | initLoggers env b r g n =>
    have hsp := (InitLoggers_spec _ _ _ _ _ _ _ hstep).2.2.2.2.2 p
    rw [hp] at hsp
    exact ⟨_, hsp, rfl, rfl, rfl, rfl, rfl, List.prefix_append _ _⟩
  | getStdLogger l lvl =>
    simp only [step, Option.map_eq_some'] at hstep
    obtain ⟨r, hr, rfl⟩ := hstep
    have hlp : l ≠ p := by
      intro hc
      exact hop lvl (by rw [hc])
    cases hl : s.heap[l]? with
    | none => simp [GetStdLogger, hl] at hr
    | some x =>
      rw [GetStdLogger_eq s hinv l x hl lvl] at hr
      cases hr
      exact ⟨h, by simp [List.getElem?_set, hlp, hp], rfl, rfl, rfl, rfl, rfl, List.prefix_refl _⟩

theorem run_keeps (ops : List Op) : ∀ (s s1 : State), Inv s → run s ops = some s1 →
    ∀ (p : Nat), (∀ lvl, Op.getStdLogger p lvl ∉ ops) → ∀ h, s.heap[p]? = some h →
    ∃ h1, s1.heap[p]? = some h1 ∧ h1.Lvl = h.Lvl ∧ h1.Level = h.Level ∧ h1.name = h.name ∧
      h1.Formatter = h.Formatter ∧ h1.Out = h.Out ∧ h.Hooks <+: h1.Hooks := by
  induction ops with
  | nil =>
    intro s s1 _ hrun p _ h hp
    simp only [run, Option.some.injEq] at hrun
    subst hrun
    exact ⟨h, hp, rfl, rfl, rfl, rfl, rfl, List.prefix_refl _⟩
  | cons op ops ih =>
    intro s s1 hinv hrun p hno h hp
    simp only [run] at hrun
    cases hs : step s op with
    | none => simp [hs] at hrun
    | some sa =>
      simp only [hs] at hrun
      have hop : ∀ lvl, op ≠ Op.getStdLogger p lvl := by
        intro lvl hc
        exact hno lvl (by rw [hc]; exact List.mem_cons_self _ _)
      obtain ⟨ha, hpa, e1, e2, e3, e4, e5, e6⟩ := step_keeps s sa hinv op hs p hop h hp
      obtain ⟨hb, hpb, f1, f2, f3, f4, f5, f6⟩ :=
        ih sa s1 (step_Inv s sa hinv op hs) hrun p
          (fun lvl hc => hno lvl (List.mem_cons_of_mem _ hc)) ha hpa
      exact ⟨hb, hpb, f1.trans e1, f2.trans e2, f3.trans e3, f4.trans e4, f5.trans e5,
        e6.trans f6⟩

/-! ## C7: the level override stays -/

/-- C7 (as stated, refuted): in a fresh process, after `main` has been adapted at
`DebugLevel`, `Format` renders the `InfoLevel` record with message `y` with the timestamp in
front of `main.DEBUG y` and the newline; whatever the time of the record, the line is not
`main.DEBUG y` and a newline alone. -/
theorem GetStdLogger_example_has_timestamp :
    ∃ r h, GetStdLogger init 0 Level.DebugLevel = some r ∧ r.1.heap[0]? = some h ∧
      r.1.syslogHook = none ∧
      (Format r.1.syslogHook h exampleInfoY).1 =
        "2025/01/02 15:04:05.123456 main.DEBUG y\n" ∧
      ∀ t : Time,
        (Format r.1.syslogHook h
          { Data := [], Time := t, Level := Level.InfoLevel, Message := "y" }).1 ≠
          "main.DEBUG y\n" := by
  have key : ∀ t : Time,
      (Format none exampleAdapted
        { Data := [], Time := t, Level := Level.InfoLevel, Message := "y" }).1 ≠
        "main.DEBUG y\n" := by
    intro t hc
    have hlen := congrArg String.length hc
    rw [Format_eq] at hlen
    have h1 : ("main.DEBUG y\n").length = 13 := by decide
    have h2 : (ToUpper (levelString ((exampleAdapted.Lvl).getD Level.InfoLevel))).length = 5 := by
      decide
    have h3 : exampleAdapted.name.length = 4 := by decide
    have h4 : (" " : String).length = 1 := by decide
    have h5 : ("." : String).length = 1 := by decide
    have h6 : ("y" : String).length = 1 := by decide
    have h7 : ("\n" : String).length = 1 := by decide
    have h8 : ("" : String).length = 0 := by decide
    simp only [String.length_append, List.length_nil, ne_eq, not_true_eq_false, if_false,
      if_true, h1, h2, h3, h4, h5, h6, h7, h8] at hlen
    omega
  exact ⟨({ init with heap := init.heap.set 0 exampleAdapted },
      { out := LoggerWriter 0, linePrefix := "", flag := 0 }), exampleAdapted, by decide,
    by decide, rfl, by decide, key⟩

/-- C7 (amended): for every reachable state, every registered handle and every severity `L`,
`GetStdLogger` on the handle returns, and after it and after any further calls of
`GetLogger`, `InitLoggers` and `GetStdLogger` on other handles, the handle's level override
and its threshold are both `L`, the handle is still its own formatter, and `Format` on it
renders every record, whatever the record's severity, as the timestamp of the record, a
space, the name, a dot, the upper-case name of `L` as the level text, a space, the message,
the context suffix and a newline. -/
theorem GetStdLogger_sticky (s : State) (hs : Reachable s) (np : String × Nat)
    (hnp : np ∈ s.loggers) (L : Level) :
    ∃ r, GetStdLogger s np.2 L = some r ∧
      ∀ ops, (∀ lvl, Op.getStdLogger np.2 lvl ∉ ops) → ∀ s2, run r.1 ops = some s2 →
        ∃ h, s2.heap[np.2]? = some h ∧ h.Lvl = some L ∧ h.Level = L ∧
          h.Formatter = Formatter.logHandle np.2 ∧
          ∀ e : Entry, Format s2.syslogHook h e =
            (e.Time.Format ++ " " ++ np.1 ++ "." ++ ToUpper (levelString L) ++ " " ++
              e.Message ++ (if e.Data.length ≠ 0 then " " ++ Sprint e.Data else "") ++ "\n",
              none) := by
  have hinv := Reachable_Inv s hs
  obtain ⟨h0, hh0, hname⟩ := hinv.2.2.2.1 np hnp
  have hlt : np.2 < s.heap.length := registry_valid s hinv np hnp
  have heq := GetStdLogger_eq s hinv np.2 h0 hh0 L
  refine ⟨_, heq, ?_⟩
  intro ops hno s2 hrun
  have hinv1 : Inv _ := GetStdLogger_Inv s hinv np.2 L _ heq
  obtain ⟨h2, hp2, e1, e2, e3, e4, -, -⟩ :=
    run_keeps ops _ s2 hinv1 hrun np.2 hno { h0 with Lvl := some L, Level := L }
      (by simp [List.getElem?_set, hlt])
  have hinv2 : Inv s2 := run_Inv ops _ s2 hinv1 hrun
  refine ⟨h2, hp2, e1, e2, (hinv2.1 np.2 h2 hp2).1, ?_⟩
  intro e
  rw [Format_eq, hinv2.2.2.2.2.2.2, e1, e3]
  simp [hname]

theorem GetStdLogger_sticky_witness :
    ("main", 0) ∈ init.loggers ∧
    ∃ r s2 h, GetStdLogger init 0 Level.DebugLevel = some r ∧
      run r.1 [Op.getLogger "main", Op.getStdLogger 1 Level.ErrorLevel] = some s2 ∧
      s2.heap[0]? = some h ∧ h.Lvl = some Level.DebugLevel ∧ h.Level = Level.DebugLevel ∧
      Format s2.syslogHook h exampleInfoY =
        ("2025/01/02 15:04:05.123456 main.DEBUG y\n", none) := by
  refine ⟨by decide, ?_⟩
  obtain ⟨r, hr, hall⟩ :=
    GetStdLogger_sticky init ⟨[], rfl⟩ ("main", 0) (by decide) Level.DebugLevel
  have hr2 : GetStdLogger init 0 Level.DebugLevel =
      some ((GetStdLogger init 0 Level.DebugLevel).get (by decide)) := by simp
  have hrr : r = (GetStdLogger init 0 Level.DebugLevel).get (by decide) :=
    Option.some.inj (hr.symm.trans hr2)
  have hrun : ∃ s2, run r.1 [Op.getLogger "main", Op.getStdLogger 1 Level.ErrorLevel] =
      some s2 := by
    rw [hrr]
    exact ⟨_, rfl⟩
  obtain ⟨s2, hrun⟩ := hrun
  obtain ⟨h, hp, h1, h2, -, hf⟩ := hall _ (by intro lvl hc; simp at hc) s2 hrun
  refine ⟨r, s2, h, hr, hrun, hp, h1, h2, ?_⟩
  rw [hf exampleInfoY]
  decide

/-! ## C8: the threshold after adaptation -/

theorem emit_written (s : State) (hinv : Inv s) (l : Nat) (h : LogHandle)
    (hl : s.heap[l]? = some h) (level : Level) (hen : IsLevelEnabled h level = true)
    (msg : String) (t : Time) :
    emit s l level msg t =
      some { s with written := s.written ++ [(Writer.Stderr,
        (Format s.syslogHook h { Data := [], Time := t, Level := level, Message := msg }).1)] } := by
  obtain ⟨hf, ho⟩ := hinv.1 l h hl
  unfold emit
  rw [hl]
  simp only [hen, if_true]
  rw [hf, ho]
  simp only [hl]

/-- C8 (as stated, refuted): on the fresh handle `main`, whose threshold is `InfoLevel`,
`GetStdLogger` at `ErrorLevel` sets the threshold to `ErrorLevel`, which is more restrictive
than before (an `InfoLevel` record passed the old threshold and does not pass the new one),
and a line written through the returned writer, a record at `InfoLevel`, is discarded. -/
theorem GetStdLogger_raises_threshold :
    ∃ r h0 h1, GetStdLogger init 0 Level.ErrorLevel = some r ∧ init.heap[0]? = some h0 ∧
      r.1.heap[0]? = some h1 ∧ h0.Level = Level.InfoLevel ∧ h1.Level = Level.ErrorLevel ∧
      ¬ (h0.Level.toNat ≤ h1.Level.toNat) ∧
      IsLevelEnabled h0 Level.InfoLevel = true ∧ IsLevelEnabled h1 Level.InfoLevel = false ∧
      IsLevelEnabled h1 r.2.out.level = false ∧
      PipeWriter.WriteLine r.1 r.2.out "x" exampleTime = some r.1 :=
  ⟨_, _, _, rfl, rfl, rfl, rfl, rfl, by decide, rfl, rfl, rfl, rfl⟩

/-- C8 (amended): for every reachable state, every registered handle and every severity `L`,
`GetStdLogger` returns and sets the handle's threshold to `L`, whatever it was before; the
returned writer emits on that handle at `InfoLevel`, and when `L` is `InfoLevel`,
`DebugLevel` or `TraceLevel` a line written through it passes the threshold check and is
written to the output. -/
theorem GetStdLogger_sets_threshold (s : State) (hs : Reachable s) (np : String × Nat)
    (hnp : np ∈ s.loggers) (L : Level) :
    ∃ r h1, GetStdLogger s np.2 L = some r ∧ r.1.heap[np.2]? = some h1 ∧ h1.Level = L ∧
      r.2.out = { logger := np.2, level := Level.InfoLevel } ∧
      (Level.InfoLevel.toNat ≤ L.toNat →
        IsLevelEnabled h1 r.2.out.level = true ∧
        ∀ (line : String) (t : Time),
          PipeWriter.WriteLine r.1 r.2.out line t =
            some { r.1 with written := r.1.written ++ [(Writer.Stderr,
              (Format r.1.syslogHook h1
                { Data := [], Time := t, Level := Level.InfoLevel, Message := line }).1)] }) := by
  have hinv := Reachable_Inv s hs
  obtain ⟨h0, hh0, -⟩ := hinv.2.2.2.1 np hnp
  have hlt : np.2 < s.heap.length := registry_valid s hinv np hnp
  have heq := GetStdLogger_eq s hinv np.2 h0 hh0 L
  have hget : (s.heap.set np.2 { h0 with Lvl := some L, Level := L })[np.2]? =
      some { h0 with Lvl := some L, Level := L } := by
    simp [List.getElem?_set, hlt]
  have hinv1 : Inv _ := GetStdLogger_Inv s hinv np.2 L _ heq
  refine ⟨_, { h0 with Lvl := some L, Level := L }, heq, hget, rfl, rfl, ?_⟩
  intro hL
  have hen : IsLevelEnabled { h0 with Lvl := some L, Level := L } Level.InfoLevel = true := by
    simpa [IsLevelEnabled] using hL
  refine ⟨hen, ?_⟩
  intro line t
  exact emit_written _ hinv1 np.2 _ hget Level.InfoLevel hen line t

theorem GetStdLogger_sets_threshold_witness :
    ("main", 0) ∈ init.loggers ∧
    ∃ r h1, GetStdLogger init 0 Level.DebugLevel = some r ∧ r.1.heap[0]? = some h1 ∧
      h1.Level = Level.DebugLevel ∧ IsLevelEnabled h1 r.2.out.level = true ∧
      ∃ s2, PipeWriter.WriteLine r.1 r.2.out "x" exampleTime = some s2 ∧
        s2.written = [(Writer.Stderr, "2025/01/02 15:04:05.123456 main.DEBUG x\n")] := by
  refine ⟨by decide, ?_⟩
  obtain ⟨r, h1, hr, hp, hl, hw, himp⟩ :=
    GetStdLogger_sets_threshold init ⟨[], rfl⟩ ("main", 0) (by decide) Level.DebugLevel
  obtain ⟨hen, hwr⟩ := himp (by decide)
  refine ⟨r, h1, hr, hp, hl, hen, _, hwr "x" exampleTime, ?_⟩
  have hr2 : GetStdLogger init 0 Level.DebugLevel =
      some ((GetStdLogger init 0 Level.DebugLevel).get (by decide)) := by simp
  have hrr : r = (GetStdLogger init 0 Level.DebugLevel).get (by decide) :=
    Option.some.inj (hr.symm.trans hr2)
  subst hrr
  have hx : ((GetStdLogger init 0 Level.DebugLevel).get (by decide)).1.heap[0]? =
      some exampleAdapted := by decide
  have hh : h1 = exampleAdapted := Option.some.inj (hp.symm.trans hx)
  subst hh
  decide

/-! ## C9: newlines of a formatted line -/

theorem isDigit_ne_newline (c : Char) (h : c.isDigit = true) : c ≠ '\n' := by
  intro hc
  subst hc
  exact absurd h (by decide)

theorem appendInt_no_newline (x : Int) (w : Nat) : '\n' ∉ (appendInt x w).data := by
  intro hc
  unfold appendInt at hc
  rw [String.data_append, List.mem_append] at hc
  rcases hc with hc | hc
  · split at hc
    · revert hc; decide
    · revert hc; decide
  · exact isDigit_ne_newline _ (padDigits_isDigit _ _ _ hc) rfl

theorem formatNano_no_newline (ns n : Nat) : '\n' ∉ (formatNano ns n).data := by
  intro hc
  unfold formatNano at hc
  rw [String.data_append, List.mem_append] at hc
  rcases hc with hc | hc
  · revert hc; decide
  · exact isDigit_ne_newline _ (padDigits_isDigit _ _ _ (List.mem_of_mem_take hc)) rfl

theorem Time_Format_no_newline (t : Time) : '\n' ∉ t.Format.data := by
  have a := appendInt_no_newline
  have b := formatNano_no_newline t.nanosecond 6
  have s1 : '\n' ∉ "/".data := by decide
  have s2 : '\n' ∉ " ".data := by decide
  have s3 : '\n' ∉ ":".data := by decide
  unfold Time.Format
  simp only [String.data_append, List.mem_append, not_or]
  exact ⟨⟨⟨⟨⟨⟨⟨⟨⟨⟨⟨a _ _, s1⟩, a _ _⟩, s1⟩, a _ _⟩, s2⟩, a _ _⟩, s3⟩, a _ _⟩, s3⟩, a _ _⟩, b⟩

theorem levelText_no_newline (lvl : Level) :
    (ToUpper (levelString lvl)).data.count '\n' = 0 := by
  cases lvl <;> decide

theorem timestamp_count (sh : Option SyslogHook) (t : Time) :
    (if sh = none then t.Format ++ " " else "").data.count '\n' = 0 := by
  split
  · rw [String.data_append, List.count_append, List.count_eq_zero.2 (Time_Format_no_newline t)]
    decide
  · decide

/-- C9 (as stated, refuted): a record whose message is `a`, a newline, `b` is rendered with
two newlines, so the formatted bytes do not contain exactly one. -/
theorem Format_two_newlines :
    (Format none exampleHandle
        { Data := [], Time := exampleTime, Level := Level.InfoLevel, Message := "a\nb" }).1 =
      "2025/01/02 15:04:05.123456 main.INFO a\nb\n" ∧
    ¬ ((Format none exampleHandle
        { Data := [], Time := exampleTime, Level := Level.InfoLevel,
          Message := "a\nb" }).1.data.count '\n' = 1) := by
  constructor <;> decide

/-- C9 (amended): for every handle, every record and either state of the system-sink
variable, `Format` returns no error, the bytes it returns end in a newline, and the number of
newlines in them is one plus the number of newlines in the handle's name, in the message and,
when the context is not empty, in the rendering of the context; so the final newline is
the only one exactly when these three parts contain none. -/
theorem Format_newlines (sh : Option SyslogHook) (l : LogHandle) (e : Entry) :
    (Format sh l e).2 = none ∧
    (Format sh l e).1.data.getLast? = some '\n' ∧
    (Format sh l e).1.data.count '\n' =
      1 + l.name.data.count '\n' + e.Message.data.count '\n' +
        (if e.Data.length ≠ 0 then (Sprint e.Data).data.count '\n' else 0) := by
  rw [Format_eq]
  refine ⟨rfl, ?_, ?_⟩
  · show (_ ++ "\n").data.getLast? = some '\n'
    rw [String.data_append]
    exact List.getLast?_concat _
  · have h1 := timestamp_count sh e.Time
    have h2 := levelText_no_newline (l.Lvl.getD e.Level)
    have h3 : ".".data.count '\n' = 0 := by decide
    have h4 : " ".data.count '\n' = 0 := by decide
    have h5 : "\n".data.count '\n' = 1 := by decide
    have h6 : "".data.count '\n' = 0 := by decide
    simp only [String.data_append, List.count_append, h1, h2, h3, h4, h5]
    split
    · simp only [String.data_append, List.count_append, h4]
      omega
    · simp only [h6]
      omega

/-! ## C10: the context suffix -/

/-- C10 (as stated, refuted): for the context in which `b` was inserted before `a`, the
line ends in `map[a:1 b:z]`, the keys in sorted order, and not in the rendering
`map[b:z a:1]` that follows the insertion order. -/
theorem Format_context_sorted_not_inserted :
    SprintInsertionOrder exampleFields = "map[b:z a:1]" ∧
    (Format none exampleHandle
        { Data := exampleFields, Time := exampleTime, Level := Level.InfoLevel,
          Message := "hi" }).1 =
      "2025/01/02 15:04:05.123456 main.INFO hi map[a:1 b:z]\n" ∧
    (Format none exampleHandle
        { Data := exampleFields, Time := exampleTime, Level := Level.InfoLevel,
          Message := "hi" }).1 ≠
      "2025/01/02 15:04:05.123456 main.INFO hi " ++ SprintInsertionOrder exampleFields ++ "\n" := by
  refine ⟨?_, ?_, ?_⟩ <;> decide

/-- C10 (amended): for every handle and every record, `Format` appends a context suffix
exactly when the record's context is not empty: with an empty context the message is
followed directly by the newline, and otherwise by one space, the rendering
`map[k1:v1 k2:v2 ...]` of the context and the newline, where the items are the pairs of the
context arranged in ascending order of their keys, whatever the order of insertion. -/
theorem Format_context (sh : Option SyslogHook) (l : LogHandle) (e : Entry) :
    ∃ items : Fields, items.Perm e.Data ∧ items.Sorted keyLe ∧
      Format sh l e =
        ((if sh = none then e.Time.Format ++ " " else "") ++ l.name ++ "." ++
          ToUpper (levelString (l.Lvl.getD e.Level)) ++ " " ++ e.Message ++
          (if e.Data = [] then ""
            else " " ++ ("map[" ++ joinSpace (items.map renderPair) ++ "]")) ++ "\n", none) := by
  refine ⟨e.Data.insertionSort keyLe, List.perm_insertionSort keyLe e.Data,
    List.sorted_insertionSort keyLe e.Data, ?_⟩
  rw [Format_eq]
  by_cases hd : e.Data = []
  · simp [hd]
  · have hlen : e.Data.length ≠ 0 := by
      intro hc
      exact hd (List.length_eq_zero.1 hc)
    simp [hd, Sprint]

/-! ## C11: InitLoggers called twice -/

theorem registered_count (s : State) (hinv : Inv s) (p : Nat) (hp : p < s.heap.length) :
    (s.loggers.map Prod.snd).count p = 1 := by
  rw [hinv.2.1]
  exact List.count_eq_one_of_mem (List.nodup_range _) (List.mem_range.2 hp)

theorem InitLoggers_hooks (s s1 : State) (hinv : Inv s) (env : Env) (b : Bool) (r g n : String)
    (h : InitLoggers s env b r g n = some s1) (p : Nat) (h0 : LogHandle)
    (hp : s.heap[p]? = some h0) :
    s1.heap[p]? = some (withHooks (addedHooks env b r g n 1) h0) := by
  have hlt : p < s.heap.length := by
    by_contra hc
    rw [List.getElem?_eq_none (by omega)] at hp
    cases hp
  have hsp := (InitLoggers_spec _ _ _ _ _ _ _ h).2.2.2.2.2 p
  rw [hp] at hsp
  simp only [registered_count s hinv p hlt, Option.map_some'] at hsp
  exact hsp

theorem addedHooks_ok (env : Env) (b : Bool) (r g n : String) (cw : CloudwatchHook)
    (sys : SyslogHook) (hcw : env.NewHook g n r = .ok cw) (hsys : env.NewSyslogHook = .ok sys) :
    addedHooks env b r g n 1 = constructed b r g n cw sys := by
  unfold addedHooks cwAdded sysAdded constructed
  rw [hcw, hsys]
  rfl

/-- C11 (as stated, refuted): in a fresh process, one call `InitLoggers(true, "", "", "")`
that constructs the system sink leaves `main` with that one sink, and a second call that
constructs the same sink leaves `main` with the sink twice. -/
theorem InitLoggers_twice_attaches_twice :
    ∃ s1 s2 h1 h2, InitLoggers init exampleEnv true "" "" "" = some s1 ∧
      InitLoggers s1 exampleEnv true "" "" "" = some s2 ∧
      s1.heap[0]? = some h1 ∧ s2.heap[0]? = some h2 ∧
      h1.Hooks = [Hook.syslog { id := 0 }] ∧
      h2.Hooks = [Hook.syslog { id := 0 }, Hook.syslog { id := 0 }] ∧
      h2.Hooks ≠ h1.Hooks :=
  ⟨_, _, _, _, rfl, rfl, rfl, rfl, rfl, rfl, by decide⟩

/-- C11 (amended): from every reachable state and for all arguments, when each requested
sink construction succeeds and yields the same sink both times, both calls of `InitLoggers`
return, and each appends the constructed sinks to every handle: after the second call a
handle carries the sinks it had, then the constructed sinks, then the constructed sinks
again. The sink sequences after two calls and after one call agree exactly when the call
constructs no sink. -/
theorem InitLoggers_twice (s : State) (hs : Reachable s) (env : Env) (b : Bool)
    (r g n : String) (cw : CloudwatchHook) (sys : SyslogHook)
    (hcw : env.NewHook g n r = .ok cw) (hsys : env.NewSyslogHook = .ok sys) :
    ∃ s1 s2, InitLoggers s env b r g n = some s1 ∧ InitLoggers s1 env b r g n = some s2 ∧
      ∀ (p : Nat) (h0 : LogHandle), s.heap[p]? = some h0 →
        ∃ h1 h2, s1.heap[p]? = some h1 ∧ s2.heap[p]? = some h2 ∧
          h1.Hooks = h0.Hooks ++ constructed b r g n cw sys ∧
          h2.Hooks = h0.Hooks ++ constructed b r g n cw sys ++ constructed b r g n cw sys ∧
          (h2.Hooks = h1.Hooks ↔ constructed b r g n cw sys = []) := by
  have hinv := Reachable_Inv s hs
  obtain ⟨s1, e1⟩ := InitLoggers_total s hinv env b r g n
  have hinv1 := InitLoggers_Inv s s1 hinv env b r g n e1
  obtain ⟨s2, e2⟩ := InitLoggers_total s1 hinv1 env b r g n
  refine ⟨s1, s2, e1, e2, ?_⟩
  intro p h0 hp
  have a1 := InitLoggers_hooks s s1 hinv env b r g n e1 p h0 hp
  have a2 := InitLoggers_hooks s1 s2 hinv1 env b r g n e2 p _ a1
  rw [addedHooks_ok env b r g n cw sys hcw hsys] at a1 a2
  refine ⟨_, _, a1, a2, rfl, rfl, ?_⟩
  simp [withHooks]

theorem InitLoggers_twice_witness :
    ∃ s1 s2, InitLoggers init exampleEnv true "r" "g" "s" = some s1 ∧
      InitLoggers s1 exampleEnv true "r" "g" "s" = some s2 ∧
      ∀ (p : Nat) (h0 : LogHandle), init.heap[p]? = some h0 →
        ∃ h1 h2, s1.heap[p]? = some h1 ∧ s2.heap[p]? = some h2 ∧
          h1.Hooks = h0.Hooks ++ [Hook.cloudwatch { id := 1 }, Hook.syslog { id := 0 }] ∧
          h2.Hooks = h0.Hooks ++ [Hook.cloudwatch { id := 1 }, Hook.syslog { id := 0 }] ++
            [Hook.cloudwatch { id := 1 }, Hook.syslog { id := 0 }] ∧
          (h2.Hooks = h1.Hooks ↔
            [Hook.cloudwatch { id := 1 }, Hook.syslog { id := 0 }] = []) :=
  InitLoggers_twice init ⟨[], rfl⟩ exampleEnv true "r" "g" "s" { id := 1 } { id := 0 } rfl rfl

/-! ## C12: the two sinks are independent -/

theorem filter_isSyslog_added (env : Env) (b : Bool) (r g n : String) (k : Nat) :
    (addedHooks env b r g n k).filter Hook.isSyslog = sysAdded env b k := by
  unfold addedHooks cwAdded sysAdded
  rw [List.filter_append]
  have h1 : ∀ (c : CloudwatchHook),
      (List.replicate k (Hook.cloudwatch c)).filter Hook.isSyslog = [] := by
    intro c; simp [List.filter_replicate, Hook.isSyslog]
  have h2 : ∀ (c : SyslogHook),
      (List.replicate k (Hook.syslog c)).filter Hook.isSyslog =
        List.replicate k (Hook.syslog c) := by
    intro c; simp [List.filter_replicate, Hook.isSyslog]
  split <;> split <;> (try split) <;> (try split) <;> simp [h1, h2]

theorem filter_isCloudwatch_added (env : Env) (b : Bool) (r g n : String) (k : Nat) :
    (addedHooks env b r g n k).filter Hook.isCloudwatch = cwAdded env r g n k := by
  unfold addedHooks cwAdded sysAdded
  rw [List.filter_append]
  have h1 : ∀ (c : CloudwatchHook),
      (List.replicate k (Hook.cloudwatch c)).filter Hook.isCloudwatch =
        List.replicate k (Hook.cloudwatch c) := by
    intro c; simp [List.filter_replicate, Hook.isCloudwatch]
  have h2 : ∀ (c : SyslogHook),
      (List.replicate k (Hook.syslog c)).filter Hook.isCloudwatch = [] := by
    intro c; simp [List.filter_replicate, Hook.isCloudwatch]
  split <;> split <;> (try split) <;> (try split) <;> simp [h1, h2]

theorem InitLoggers_filtered (s s1 : State) (env : Env) (b : Bool) (r g n : String)
    (h : InitLoggers s env b r g n = some s1) (p : Nat) :
    (s1.heap[p]?).map (fun x : LogHandle => x.Hooks.filter Hook.isSyslog) =
        (s.heap[p]?).map (fun x : LogHandle => x.Hooks.filter Hook.isSyslog ++
          sysAdded env b ((s.loggers.map Prod.snd).count p)) ∧
      (s1.heap[p]?).map (fun x : LogHandle => x.Hooks.filter Hook.isCloudwatch) =
        (s.heap[p]?).map (fun x : LogHandle => x.Hooks.filter Hook.isCloudwatch ++
          cwAdded env r g n ((s.loggers.map Prod.snd).count p)) := by
  have hsp := (InitLoggers_spec _ _ _ _ _ _ _ h).2.2.2.2.2 p
  rw [hsp]
  cases s.heap[p]? with
  | none => exact ⟨rfl, rfl⟩
  | some h0 =>
    simp [withHooks, List.filter_append, filter_isSyslog_added, filter_isCloudwatch_added]

/-- C12: from every reachable state `InitLoggers` returns, and the system sinks each handle
carries afterwards are the same when the request for the remote sink and the outcome of its
construction are replaced by any others, while the remote sinks each handle carries
afterwards are the same when `logToSyslog` and the outcome of the system sink's construction
are replaced by any others. -/
theorem InitLoggers_sinks_independent (s : State) (hs : Reachable s) (env : Env) (b : Bool)
    (r g n : String) (otherCw : String → String → String → Except String CloudwatchHook)
    (r2 g2 n2 : String) (otherSys : Except String SyslogHook) (b2 : Bool) :
    ∃ s1 s2 s3, InitLoggers s env b r g n = some s1 ∧
      InitLoggers s { env with NewHook := otherCw } b r2 g2 n2 = some s2 ∧
      InitLoggers s { env with NewSyslogHook := otherSys } b2 r g n = some s3 ∧
      ∀ p : Nat,
        (s1.heap[p]?).map (fun x : LogHandle => x.Hooks.filter Hook.isSyslog) =
          (s2.heap[p]?).map (fun x : LogHandle => x.Hooks.filter Hook.isSyslog) ∧
        (s1.heap[p]?).map (fun x : LogHandle => x.Hooks.filter Hook.isCloudwatch) =
          (s3.heap[p]?).map (fun x : LogHandle => x.Hooks.filter Hook.isCloudwatch) := by
  have hinv := Reachable_Inv s hs
  obtain ⟨s1, e1⟩ := InitLoggers_total s hinv env b r g n
  obtain ⟨s2, e2⟩ := InitLoggers_total s hinv { env with NewHook := otherCw } b r2 g2 n2
  obtain ⟨s3, e3⟩ := InitLoggers_total s hinv { env with NewSyslogHook := otherSys } b2 r g n
  refine ⟨s1, s2, s3, e1, e2, e3, ?_⟩
  intro p
  rw [(InitLoggers_filtered _ _ _ _ _ _ _ e1 p).1, (InitLoggers_filtered _ _ _ _ _ _ _ e1 p).2,
    (InitLoggers_filtered _ _ _ _ _ _ _ e2 p).1, (InitLoggers_filtered _ _ _ _ _ _ _ e3 p).2]
  exact ⟨rfl, rfl⟩

theorem InitLoggers_sinks_independent_witness :
    ∃ s1 s2 s3, InitLoggers init exampleEnv true "r" "g" "s" = some s1 ∧
      InitLoggers init { exampleEnv with NewHook := failingEnv.NewHook } true "r" "g" "s" =
        some s2 ∧
      InitLoggers init { exampleEnv with NewSyslogHook := failingEnv.NewSyslogHook } true
        "r" "g" "s" = some s3 ∧
      ∀ p : Nat,
        (s1.heap[p]?).map (fun x : LogHandle => x.Hooks.filter Hook.isSyslog) =
          (s2.heap[p]?).map (fun x : LogHandle => x.Hooks.filter Hook.isSyslog) ∧
        (s1.heap[p]?).map (fun x : LogHandle => x.Hooks.filter Hook.isCloudwatch) =
          (s3.heap[p]?).map (fun x : LogHandle => x.Hooks.filter Hook.isCloudwatch) :=
  InitLoggers_sinks_independent init ⟨[], rfl⟩ exampleEnv true "r" "g" "s" failingEnv.NewHook
    "r" "g" "s" failingEnv.NewSyslogHook true

/-! ## C13 and C14: creation, and nothing is removed -/

/-- C13: for every state and every name not in the registry, `GetLogger` returns the address
of a handle that was not allocated before, leaves the handles that were there as they are,
and the new handle has the given name, the threshold `InfoLevel`, standard error as its
output, itself as its formatter and no level override; afterwards the registry maps the name
to the new handle; and when `syslogHook` is nil the new handle has no sinks. -/
theorem GetLogger_creates (s : State) (name : String) (hname : s.loggers.lookup name = none) :
    (GetLogger s name).2 = s.heap.length ∧
    (∀ p : Nat, p < s.heap.length → (GetLogger s name).1.heap[p]? = s.heap[p]?) ∧
    (GetLogger s name).1.loggers.lookup name = some (GetLogger s name).2 ∧
    ∃ h, (GetLogger s name).1.heap[(GetLogger s name).2]? = some h ∧
      h.name = name ∧ h.Level = Level.InfoLevel ∧ h.Out = some Writer.Stderr ∧
      h.Formatter = Formatter.logHandle (GetLogger s name).2 ∧ h.Lvl = none ∧
      (s.syslogHook = none → h.Hooks = []) := by
  refine ⟨?_, ?_, GetLogger_registered s name, ?_⟩
  · rw [GetLogger_miss s name hname]
  · intro p hp
    rw [GetLogger_miss s name hname]
    exact List.getElem?_append_left hp
  · rw [GetLogger_miss s name hname]
    refine ⟨newHandle s.syslogHook s.heap.length name, by simp, rfl, rfl, rfl, rfl, rfl, ?_⟩
    intro hnone
    rw [hnone]
    rfl

theorem GetLogger_creates_witness :
    init.loggers.lookup "x" = none ∧ (GetLogger init "x").2 = 2 ∧
    (GetLogger init "x").1.loggers.lookup "x" = some 2 ∧
    ∃ h, (GetLogger init "x").1.heap[(GetLogger init "x").2]? = some h ∧
      h.name = "x" ∧ h.Level = Level.InfoLevel ∧ h.Out = some Writer.Stderr ∧
      h.Formatter = Formatter.logHandle (GetLogger init "x").2 ∧ h.Lvl = none ∧
      (init.syslogHook = none → h.Hooks = []) :=
  ⟨by decide, (GetLogger_creates init "x" (by decide)).1,
    (GetLogger_creates init "x" (by decide)).2.2.1,
    (GetLogger_creates init "x" (by decide)).2.2.2⟩

theorem step_total (s : State) (hinv : Inv s) (op : Op) (hv : OpValid s op) :
    ∃ s1, step s op = some s1 := by
  cases op with
  | getLogger name => exact ⟨_, rfl⟩
  | initLoggers env b r g n => exact InitLoggers_total s hinv env b r g n
  | getStdLogger l lvl =>
    obtain ⟨r, hr⟩ := GetStdLogger_total s hinv l hv lvl
    exact ⟨r.1, by simp [step, hr]⟩

theorem step_hooks_prefix (s s1 : State) (hinv : Inv s) (op : Op) (hstep : step s op = some s1)
    (p : Nat) (h : LogHandle) (hp : s.heap[p]? = some h) :
    ∃ h1, s1.heap[p]? = some h1 ∧ h1.name = h.name ∧ h.Hooks <+: h1.Hooks := by
  by_cases hop : ∀ lvl, op ≠ Op.getStdLogger p lvl
  · obtain ⟨h1, a, -, -, c, -, -, d⟩ := step_keeps s s1 hinv op hstep p hop h hp
    exact ⟨h1, a, c, d⟩
  · push_neg at hop
    obtain ⟨lvl, rfl⟩ := hop
    simp only [step, Option.map_eq_some'] at hstep
    obtain ⟨r, hr, rfl⟩ := hstep
    rw [GetStdLogger_eq s hinv p h hp lvl] at hr
    cases hr
    have hlt : p < s.heap.length := by
      by_contra hc
      rw [List.getElem?_eq_none (by omega)] at hp
      cases hp
    exact ⟨{ h with Lvl := some lvl, Level := lvl }, by simp [List.getElem?_set, hlt], rfl,
      List.prefix_refl _⟩

/-- C14: from every reachable state each call of `GetLogger`, `InitLoggers` and
`GetStdLogger` (on a handle that exists) returns, and afterwards every name the registry
held still maps to the same handle, that handle still exists, and the sinks it had
before are a prefix of the sinks it has after. -/
theorem nothing_removed (s : State) (hs : Reachable s) (op : Op) (hv : OpValid s op) :
    ∃ s1, step s op = some s1 ∧
      ∀ (name : String) (p : Nat), s.loggers.lookup name = some p →
        s1.loggers.lookup name = some p ∧
        ∃ h h1, s.heap[p]? = some h ∧ s1.heap[p]? = some h1 ∧ h.Hooks <+: h1.Hooks := by
  have hinv := Reachable_Inv s hs
  obtain ⟨s1, hstep⟩ := step_total s hinv op hv
  refine ⟨s1, hstep, ?_⟩
  intro name p hl
  refine ⟨step_loggers_lookup s s1 op hstep name p hl, ?_⟩
  obtain ⟨h, hh⟩ := registered_some s hinv (name, p) (lookup_some_mem hl)
  obtain ⟨h1, a, -, c⟩ := step_hooks_prefix s s1 hinv op hstep p h hh
  exact ⟨h, h1, hh, a, c⟩

theorem nothing_removed_witness :
    ∃ s1, step init (Op.initLoggers exampleEnv true "r" "g" "s") = some s1 ∧
      ∀ (name : String) (p : Nat), init.loggers.lookup name = some p →
        s1.loggers.lookup name = some p ∧
        ∃ h h1, init.heap[p]? = some h ∧ s1.heap[p]? = some h1 ∧ h.Hooks <+: h1.Hooks :=
  nothing_removed init ⟨[], rfl⟩ (Op.initLoggers exampleEnv true "r" "g" "s") trivial

/-! ## C15: the reserved handles -/

/-- C15: in the state after package initialisation and in every state reachable from it,
the registry maps `main` and `fuse` to two distinct handles that exist and are named `main`
and `fuse`, the variables `log` and `fuseLog` point to them, and `GetLogger` on either name
returns that handle and leaves the state as it is, creating nothing. -/
theorem reserved_handles (s : State) (hs : Reachable s) :
    ∃ p q hm hf, s.loggers.lookup "main" = some p ∧ s.loggers.lookup "fuse" = some q ∧
      p ≠ q ∧ s.heap[p]? = some hm ∧ s.heap[q]? = some hf ∧
      hm.name = "main" ∧ hf.name = "fuse" ∧ s.log = some p ∧ s.fuseLog = some q ∧
      GetLogger s "main" = (s, p) ∧ GetLogger s "fuse" = (s, q) := by
  have hinv := Reachable_Inv s hs
  obtain ⟨-, -, -, i4, ⟨p, hlog, hp⟩, ⟨q, hfuse, hq⟩, -⟩ := hinv
  obtain ⟨hm, hhm, hnm⟩ := i4 ("main", p) (lookup_some_mem hp)
  obtain ⟨hf, hhf, hnf⟩ := i4 ("fuse", q) (lookup_some_mem hq)
  refine ⟨p, q, hm, hf, hp, hq, ?_, hhm, hhf, hnm, hnf, hlog, hfuse,
    GetLogger_hit s "main" p hp, GetLogger_hit s "fuse" q hq⟩
  intro hpq
  simp only at hhm hhf hnm hnf
  rw [hpq, hhf] at hhm
  have : hf = hm := Option.some.inj hhm
  rw [this, hnm] at hnf
  exact absurd hnf (by decide)

theorem reserved_handles_witness :
    ∃ p q hm hf, init.loggers.lookup "main" = some p ∧ init.loggers.lookup "fuse" = some q ∧
      p ≠ q ∧ init.heap[p]? = some hm ∧ init.heap[q]? = some hf ∧
      hm.name = "main" ∧ hf.name = "fuse" ∧ init.log = some p ∧ init.fuseLog = some q ∧
      GetLogger init "main" = (init, p) ∧ GetLogger init "fuse" = (init, q) :=
  reserved_handles init ⟨[], rfl⟩

/-! ## C16: a system sink that cannot be constructed -/

theorem emit_dropped (s : State) (l : Nat) (h : LogHandle) (hl : s.heap[l]? = some h)
    (level : Level) (hen : IsLevelEnabled h level = false) (msg : String) (t : Time) :
    emit s l level msg t = some s := by
  unfold emit
  rw [hl]
  simp [hen]

theorem initCloudwatch_skip (s : State) (env : Env) (r g n : String)
    (h : ¬ (r ≠ "" ∧ g ≠ "" ∧ n ≠ "")) : initCloudwatch s env r g n = some s := by
  unfold initCloudwatch
  rw [if_neg h]

/-- C16 (as stated, refuted): after `main` has been adapted at `ErrorLevel`, a call
`InitLoggers(true, "", "", "")` that fails to construct the system sink returns with
nothing written: the record `Println` makes on `main` is at `InfoLevel` and is discarded
by the threshold, so no warning comes out. -/
theorem InitLoggers_failure_silent :
    ∃ r s1, GetStdLogger init 0 Level.ErrorLevel = some r ∧
      r.1.loggers.lookup "main" = some 0 ∧
      InitLoggers r.1 failingEnv true "" "" "" = some s1 ∧
      r.1.written = [] ∧ s1.written = [] ∧ s1 = r.1 :=
  ⟨_, _, rfl, by decide, rfl, rfl, rfl, by decide⟩

/-- C16 (amended): from every reachable state, when `InitLoggers(true, r, g, s)` fails to
construct the system sink, the call returns, no handle gains a system sink, `syslogHook`
stays nil (a handle created afterwards has no sinks), and after the remote-sink statement
has run the failure is reported by one `Println` on `main`: a record at `InfoLevel` that
is written to standard error when the threshold of `main` admits `InfoLevel` and is
discarded otherwise. When the remote sink is not requested nothing else is written. -/
theorem InitLoggers_syslog_failure (s : State) (hs : Reachable s) (env : Env)
    (r g n : String) (err : String) (herr : env.NewSyslogHook = .error err) :
    ∃ sa s1 p hm, initCloudwatch s env r g n = some sa ∧
      InitLoggers s env true r g n = some s1 ∧
      s.log = some p ∧ s.loggers.lookup "main" = some p ∧ sa.heap[p]? = some hm ∧
      s1.syslogHook = none ∧ s1.heap = sa.heap ∧ s1.loggers = s.loggers ∧
      (∀ q : Nat, (s1.heap[q]?).map (fun x : LogHandle => x.Hooks.filter Hook.isSyslog) =
        (s.heap[q]?).map (fun x : LogHandle => x.Hooks.filter Hook.isSyslog)) ∧
      s1.written = sa.written ++
        (if IsLevelEnabled hm Level.InfoLevel then
          [(Writer.Stderr, (Format none hm
            { Data := [], Time := env.sysTime, Level := Level.InfoLevel,
              Message := "Unable to connect to local syslog daemon: " ++ err }).1)]
        else []) ∧
      (¬ (r ≠ "" ∧ g ≠ "" ∧ n ≠ "") → sa = s) ∧
      ∀ name, s1.loggers.lookup name = none →
        ∃ h, (GetLogger s1 name).1.heap[(GetLogger s1 name).2]? = some h ∧ h.Hooks = [] := by
  have hinv := Reachable_Inv s hs
  obtain ⟨sa, hsa⟩ := initCloudwatch_total s hinv env r g n
  have hatt := initCloudwatch_spec _ _ _ _ _ _ hsa
  have hinva := Inv_of_Attached _ _ _ hinv hatt
  obtain ⟨p, hlog, hmain⟩ := hinv.2.2.2.2.1
  have hloga : sa.log = some p := by rw [hatt.2.1]; exact hlog
  obtain ⟨p2, hp2, hlt⟩ := log_valid sa hinva
  have hpp : p2 = p := Option.some.inj (hp2.symm.trans hloga)
  subst hpp
  have hget : sa.heap[p2]? = some sa.heap[p2] := List.getElem?_eq_getElem hlt
  have hsys : sa.syslogHook = none := hinva.2.2.2.2.2.2
  -- the second statement
  have hsecond : ∃ s1, initSyslog sa env true = some s1 ∧ s1.heap = sa.heap ∧
      s1.loggers = sa.loggers ∧ s1.syslogHook = sa.syslogHook ∧
      s1.written = sa.written ++
        (if IsLevelEnabled sa.heap[p2] Level.InfoLevel then
          [(Writer.Stderr, (Format none sa.heap[p2]
            { Data := [], Time := env.sysTime, Level := Level.InfoLevel,
              Message := "Unable to connect to local syslog daemon: " ++ err }).1)]
        else []) := by
    unfold initSyslog
    simp only [if_true, herr, hloga, Println]
    cases hen : IsLevelEnabled sa.heap[p2] Level.InfoLevel with
    | true =>
      rw [emit_written sa hinva p2 _ hget Level.InfoLevel hen, hsys]
      exact ⟨_, rfl, rfl, rfl, rfl, by simp⟩
    | false =>
      rw [emit_dropped sa p2 _ hget Level.InfoLevel hen]
      exact ⟨_, rfl, rfl, rfl, rfl, by simp⟩
  obtain ⟨s1, h1, e1, e2, e3, e4⟩ := hsecond
  have hinit : InitLoggers s env true r g n = some s1 := by
    unfold InitLoggers
    rw [hsa]
    exact h1
  have hnone : s1.syslogHook = none := by rw [e3]; exact hsys
  refine ⟨sa, s1, p2, sa.heap[p2], hsa, hinit, hlog, hmain, hget, hnone, e1,
    by rw [e2, hatt.1], ?_, e4, ?_, ?_⟩
  · intro q
    have hf := (InitLoggers_filtered _ _ _ _ _ _ _ hinit q).1
    rw [hf]
    cases s.heap[q]? with
    | none => rfl
    | some x => simp [sysAdded, herr]
  · intro hskip
    have := initCloudwatch_skip s env r g n hskip
    exact Option.some.inj (hsa.symm.trans this)
  · intro name hname
    rw [GetLogger_miss s1 name hname, hnone]
    exact ⟨newHandle none s1.heap.length name, by simp, rfl⟩

theorem InitLoggers_syslog_failure_witness :
    ∃ s1, InitLoggers init failingEnv true "" "" "" = some s1 ∧ s1.syslogHook = none ∧
      s1.heap = init.heap ∧
      s1.written = [(Writer.Stderr,
        "2025/01/02 15:04:05.123456 main.INFO Unable to connect to local syslog daemon: no daemon\n")] := by
  obtain ⟨sa, s1, p, hm, h1, h2, h3, h4, h5, h6, h7, h8, h9, h10, h11, -⟩ :=
    InitLoggers_syslog_failure init ⟨[], rfl⟩ failingEnv "" "" "" "no daemon" rfl
  have hsa : sa = init := h11 (by decide)
  subst hsa
  have hp : p = 0 := Option.some.inj (h3.symm.trans (by decide))
  subst hp
  have hhm : hm = newHandle none 0 "main" := Option.some.inj (h5.symm.trans (by decide))
  subst hhm
  refine ⟨s1, h2, h6, h7, ?_⟩
  rw [h10]
  decide

/-! ## C17, C18 and C19: frames and well-formed handles -/

/-- C17: for every state and all region, group and stream name of which at least one is
empty, `InitLoggers(false, r, g, s)` returns and leaves the whole state as it found it: no
sink is constructed or attached, nothing is written, and the registry, every handle and
`syslogHook` are unchanged. -/
theorem InitLoggers_no_request (s : State) (env : Env) (r g n : String)
    (hempty : r = "" ∨ g = "" ∨ n = "") : InitLoggers s env false r g n = some s := by
  have hskip : ¬ (r ≠ "" ∧ g ≠ "" ∧ n ≠ "") := by
    rintro ⟨h1, h2, h3⟩
    rcases hempty with h | h | h
    · exact h1 h
    · exact h2 h
    · exact h3 h
  unfold InitLoggers
  rw [initCloudwatch_skip s env r g n hskip]
  rfl

theorem InitLoggers_no_request_witness :
    InitLoggers init exampleEnv false "r" "" "s" = some init :=
  InitLoggers_no_request init exampleEnv "r" "" "s" (Or.inr (Or.inl rfl))

/-- C18: in every reachable state every handle in the registry exists, has standard error
as its output and itself as its formatter; so for the handle `GetLogger` returns for any
name and for every severity, `GetStdLogger` returns (the type assertion on the formatter
succeeds), and the override and the threshold it writes are found on that same handle. -/
theorem registry_handles_well_formed (s : State) (hs : Reachable s) :
    (∀ np ∈ s.loggers, ∃ h, s.heap[np.2]? = some h ∧ h.Out = some Writer.Stderr ∧
      h.Formatter = Formatter.logHandle np.2) ∧
    ∀ (name : String) (L : Level),
      ∃ h r h1, (GetLogger s name).1.heap[(GetLogger s name).2]? = some h ∧
        h.Out = some Writer.Stderr ∧ h.Formatter = Formatter.logHandle (GetLogger s name).2 ∧
        GetStdLogger (GetLogger s name).1 (GetLogger s name).2 L = some r ∧
        r.1.heap[(GetLogger s name).2]? = some h1 ∧ h1.Lvl = some L ∧ h1.Level = L ∧
        h1.Formatter = Formatter.logHandle (GetLogger s name).2 := by
  have hinv := Reachable_Inv s hs
  constructor
  · intro np hnp
    obtain ⟨h, hh⟩ := registered_some s hinv np hnp
    exact ⟨h, hh, (hinv.1 np.2 h hh).2, (hinv.1 np.2 h hh).1⟩
  · intro name L
    have hinv1 := GetLogger_Inv s hinv name
    have hreg := lookup_some_mem (GetLogger_registered s name)
    obtain ⟨h, hh⟩ := registered_some _ hinv1 _ hreg
    have hlt := registry_valid _ hinv1 _ hreg
    obtain ⟨hf, ho⟩ := hinv1.1 _ h hh
    refine ⟨h, _, { h with Lvl := some L, Level := L }, hh, ho, hf,
      GetStdLogger_eq _ hinv1 _ h hh L, ?_, rfl, rfl, hf⟩
    simp only at hlt
    simp [List.getElem?_set, hlt]

/-- C19: for every reachable state, every registered handle and every severity,
`GetStdLogger` returns and leaves the registry, the variables `log`, `fuseLog` and
`syslogHook` and the writes made so far unchanged; on the handle itself the name, the
output, the formatter and the sinks are unchanged; and every other handle is unchanged
altogether, its threshold and level override included. -/
theorem GetStdLogger_frame (s : State) (hs : Reachable s) (np : String × Nat)
    (hnp : np ∈ s.loggers) (L : Level) :
    ∃ r h h1, GetStdLogger s np.2 L = some r ∧
      r.1.loggers = s.loggers ∧ r.1.syslogHook = s.syslogHook ∧ r.1.log = s.log ∧
      r.1.fuseLog = s.fuseLog ∧ r.1.written = s.written ∧
      r.1.heap.length = s.heap.length ∧
      s.heap[np.2]? = some h ∧ r.1.heap[np.2]? = some h1 ∧
      h1.name = h.name ∧ h1.Out = h.Out ∧ h1.Hooks = h.Hooks ∧ h1.Formatter = h.Formatter ∧
      ∀ q : Nat, q ≠ np.2 → r.1.heap[q]? = s.heap[q]? := by
  have hinv := Reachable_Inv s hs
  obtain ⟨h, hh⟩ := registered_some s hinv np hnp
  have hlt := registry_valid s hinv np hnp
  refine ⟨_, h, { h with Lvl := some L, Level := L }, GetStdLogger_eq s hinv np.2 h hh L,
    rfl, rfl, rfl, rfl, rfl, by simp, hh, by simp [List.getElem?_set, hlt], rfl, rfl, rfl, rfl,
    ?_⟩
  intro q hq
  simp [List.getElem?_set, Ne.symm hq]

theorem GetStdLogger_frame_witness :
    ∃ r h h1, GetStdLogger init 1 Level.DebugLevel = some r ∧
      r.1.loggers = init.loggers ∧ r.1.syslogHook = init.syslogHook ∧ r.1.log = init.log ∧
      r.1.fuseLog = init.fuseLog ∧ r.1.written = init.written ∧
      r.1.heap.length = init.heap.length ∧
      init.heap[1]? = some h ∧ r.1.heap[1]? = some h1 ∧
      h1.name = h.name ∧ h1.Out = h.Out ∧ h1.Hooks = h.Hooks ∧ h1.Formatter = h.Formatter ∧
      ∀ q : Nat, q ≠ 1 → r.1.heap[q]? = init.heap[q]? :=
  GetStdLogger_frame init ⟨[], rfl⟩ ("fuse", 1) (by decide) Level.DebugLevel

theorem registry_handles_well_formed_witness :
    ∃ h r h1, (GetLogger init "x").1.heap[(GetLogger init "x").2]? = some h ∧
      h.Out = some Writer.Stderr ∧ h.Formatter = Formatter.logHandle 2 ∧
      GetStdLogger (GetLogger init "x").1 (GetLogger init "x").2 Level.TraceLevel = some r ∧
      r.1.heap[(GetLogger init "x").2]? = some h1 ∧ h1.Lvl = some Level.TraceLevel ∧
      h1.Level = Level.TraceLevel ∧ h1.Formatter = Formatter.logHandle 2 :=
  (registry_handles_well_formed init ⟨[], rfl⟩).2 "x" Level.TraceLevel

/-! ## C20: the entry point Log -/

theorem emit_written_self (s : State) (l : Nat) (h : LogHandle) (out : Writer)
    (hl : s.heap[l]? = some h) (hf : h.Formatter = Formatter.logHandle l)
    (ho : h.Out = some out) (level : Level) (hen : IsLevelEnabled h level = true)
    (msg : String) (t : Time) :
    emit s l level msg t =
      some { s with written := s.written ++ [(out,
        (Format s.syslogHook h { Data := [], Time := t, Level := level, Message := msg }).1)] } := by
  unfold emit
  rw [hl]
  simp only [hen, if_true]
  rw [hf, ho]
  simp only [hl]

/-- C20: `Log` is `Debugln` on the same handle with the same operands. For a handle that is
its own formatter and has an output: when its threshold is `InfoLevel` the call returns
and writes nothing; when its threshold is `DebugLevel` or `TraceLevel` and no level
override is set the call writes one line to the output, made of the timestamp (when
`syslogHook` is nil), the name, `.DEBUG`, a space, the operands joined by spaces and a
newline. -/
theorem Log_is_Debugln (s : State) (p : Nat) (h : LogHandle) (out : Writer)
    (hp : s.heap[p]? = some h) (hf : h.Formatter = Formatter.logHandle p)
    (ho : h.Out = some out) (args : List Value) (t : Time) :
    Log s p args t = Debugln s p args t ∧
    (h.Level = Level.InfoLevel → Log s p args t = some s) ∧
    ((h.Level = Level.DebugLevel ∨ h.Level = Level.TraceLevel) → h.Lvl = none →
      Log s p args t = some { s with written := s.written ++ [(out,
        (if s.syslogHook = none then t.Format ++ " " else "") ++ h.name ++ "." ++ "DEBUG" ++
          " " ++ Sprintlnn args ++ "\n")] }) := by
  refine ⟨rfl, ?_, ?_⟩
  · intro hlev
    have hen : IsLevelEnabled h Level.DebugLevel = false := by
      simp [IsLevelEnabled, hlev, Level.toNat]
    exact emit_dropped s p h hp Level.DebugLevel hen _ t
  · intro hlev hlvl
    have hen : IsLevelEnabled h Level.DebugLevel = true := by
      rcases hlev with hlev | hlev <;> simp [IsLevelEnabled, hlev, Level.toNat]
    have hup : ToUpper (levelString Level.DebugLevel) = "DEBUG" := by decide
    unfold Log Debugln
    rw [emit_written_self s p h out hp hf ho Level.DebugLevel hen, Format_eq, hlvl]
    simp [hup]

theorem Log_is_Debugln_witness :
    Log init 0 [Value.str "request", Value.int 7] exampleTime = some init ∧
    Log debugState 0 [Value.str "request", Value.int 7] exampleTime =
      some { debugState with written :=
        [(Writer.Stderr, "2025/01/02 15:04:05.123456 main.DEBUG request 7\n")] } :=
  ⟨(Log_is_Debugln init 0 exampleHandle Writer.Stderr rfl rfl rfl _ exampleTime).2.1 rfl,
    (Log_is_Debugln debugState 0 { exampleHandle with Level := Level.DebugLevel }
      Writer.Stderr rfl rfl rfl _ exampleTime).2.2 (Or.inl rfl) rfl⟩

end Logger
